import Mathlib

/-!
Verification development for the CarrerMVP repository
(src/app/api/chat/route.ts).  The definitions below are a shallow
embedding of the TypeScript source: each `def` carries the name of the
source function it translates, and regular-expression operations are
translated into explicit character-level scanners that follow the
JavaScript regex semantics used by the source (ASCII-only word
characters for backslash-b and backslash-w, left-to-right global
scanning, greedy/lazy quantifier behaviour where it is observable).
-/

set_option maxRecDepth 8000

namespace CarrerMVP

/-- JS regex word character (backslash-w / backslash-b): ASCII letters,
digits and underscore.  Polish diacritic letters are NOT word characters
in JavaScript regexes without the `u` flag. -/
def isWordChar (c : Char) : Bool :=
  (65 ≤ c.toNat && c.toNat ≤ 90) || (97 ≤ c.toNat && c.toNat ≤ 122) ||
  (48 ≤ c.toNat && c.toNat ≤ 57) || c == '_'

/-- ASCII digit. -/
def isDigitCh (c : Char) : Bool := 48 ≤ c.toNat && c.toNat ≤ 57

/-- JS whitespace class backslash-s (the members that occur in the data
handled by this code base: space, tab, newline, carriage return,
vertical tab, form feed). -/
def isWs (c : Char) : Bool :=
  c == ' ' || c == '\t' || c == '\n' || c == '\r' || c.toNat == 11 || c.toNat == 12

/-- The nine Polish diacritic letter pairs (upper, lower). -/
def polishPairs : List (Char × Char) :=
  [('Ą', 'ą'), ('Ć', 'ć'), ('Ę', 'ę'), ('Ł', 'ł'), ('Ń', 'ń'),
   ('Ó', 'ó'), ('Ś', 'ś'), ('Ź', 'ź'), ('Ż', 'ż')]

/-- JS `toLowerCase` restricted to the alphabets used by the source
(ASCII plus the Polish diacritic letters). -/
def toLowerCh (c : Char) : Char :=
  if 65 ≤ c.toNat && c.toNat ≤ 90 then Char.ofNat (c.toNat + 32)
  else
    match polishPairs.find? (fun p => p.1 == c) with
    | some p => p.2
    | none => c

/-- JS `toUpperCase` restricted to the alphabets used by the source. -/
def toUpperCh (c : Char) : Char :=
  if 97 ≤ c.toNat && c.toNat ≤ 122 then Char.ofNat (c.toNat - 32)
  else
    match polishPairs.find? (fun p => p.2 == c) with
    | some p => p.1
    | none => c

/-- Character class `[A-ZĄĆĘŁŃÓŚŹŻ]` (upper-case ASCII or Polish letter). -/
def isUpperPL (c : Char) : Bool :=
  (65 ≤ c.toNat && c.toNat ≤ 90) || polishPairs.any (fun p => p.1 == c)

/-- Character class `[a-ząćęłńóśźż]` (lower-case ASCII or Polish letter). -/
def isLowerPL (c : Char) : Bool :=
  (97 ≤ c.toNat && c.toNat ≤ 122) || polishPairs.any (fun p => p.2 == c)

/-- Character class `[A-Za-zĄĆĘŁŃÓŚŹŻąćęłńóśźż]` used throughout the
source's date-degluing regexes. -/
def isLetterPL (c : Char) : Bool := isUpperPL c || isLowerPL c

/-- Word/non-word boundary test of JS backslash-b between two optional
characters (string edges count as non-word). -/
def boundaryBetween (l r : Option Char) : Bool :=
  (match l with | some c => isWordChar c | none => false) !=
  (match r with | some c => isWordChar c | none => false)

/-- Lower-case an entire character list (JS `toLowerCase`). -/
def lowerL (l : List Char) : List Char := l.map toLowerCh

/-- Upper-case an entire character list (JS `toUpperCase`). -/
def upperL (l : List Char) : List Char := l.map toUpperCh

/-- Does the first list occur as a prefix of the second? -/
def startsWithL : List Char → List Char → Bool
  | [], _ => true
  | _ :: _, [] => false
  | a :: as, b :: bs => a == b && startsWithL as bs

/-- First index (if any) at which `needle` occurs in `hay`. -/
def findSubIdxAux (needle : List Char) : List Char → Nat → Option Nat
  | [], i => if startsWithL needle [] then some i else none
  | c :: t, i =>
      if startsWithL needle (c :: t) then some i else findSubIdxAux needle t (i + 1)

/-- First index of a substring. -/
def findSubIdx (needle hay : List Char) : Option Nat := findSubIdxAux needle hay 0

/-- Substring containment (JS `includes`). -/
def containsSub (hay needle : List Char) : Bool := (findSubIdx needle hay).isSome

/-- Case-insensitive substring containment on strings. -/
def includesCI (hay needle : String) : Bool :=
  containsSub (lowerL hay.data) (lowerL needle.data)

/-- Case-sensitive substring containment on strings (JS `includes`). -/
def includesStr (hay needle : String) : Bool := containsSub hay.data needle.data

/-- Replace every (non-overlapping, left-to-right) occurrence of a
literal substring, as JS `split(a).join(b)` / global literal replace. -/
def replaceAllSubAux (needle repl : List Char) : Nat → List Char → List Char
  | 0, l => l
  | _ + 1, [] => []
  | fuel + 1, c :: t =>
      if needle ≠ [] && startsWithL needle (c :: t) then
        repl ++ replaceAllSubAux needle repl fuel ((c :: t).drop needle.length)
      else
        c :: replaceAllSubAux needle repl fuel t

/-- Replace all occurrences of a literal substring. -/
def replaceAllSub (needle repl l : List Char) : List Char :=
  replaceAllSubAux needle repl (l.length + 1) l

/-- JS `trim` (strip leading and trailing whitespace). -/
def jsTrimL (l : List Char) : List Char :=
  ((l.dropWhile isWs).reverse.dropWhile isWs).reverse

/-- JS `trimEnd`. -/
def jsTrimEndL (l : List Char) : List Char :=
  (l.reverse.dropWhile isWs).reverse

/-- JS `trim` on strings. -/
def jsTrim (s : String) : String := ⟨jsTrimL s.data⟩

/-- Split a character list at every newline (the source always splits on
a single newline after normalising line breaks). -/
def splitLinesL : List Char → List (List Char)
  | [] => [[]]
  | '\n' :: t => [] :: splitLinesL t
  | c :: t =>
      match splitLinesL t with
      | [] => [[c]]
      | h :: r => (c :: h) :: r

/-- Join lines with newlines (JS `join('\n')`). -/
def joinLinesL : List (List Char) → List Char
  | [] => []
  | [l] => l
  | l :: r => l ++ '\n' :: joinLinesL r

/-- Collapse every whitespace run to a single space (regex `\s+` → `' '`). -/
def collapseWsAux : Nat → List Char → List Char
  | 0, l => l
  | _ + 1, [] => []
  | fuel + 1, c :: t =>
      if isWs c then ' ' :: collapseWsAux fuel (t.dropWhile isWs)
      else c :: collapseWsAux fuel t

/-- Collapse whitespace runs to single spaces. -/
def collapseWs (l : List Char) : List Char := collapseWsAux (l.length + 1) l

end CarrerMVP

namespace CarrerMVP

/-- Match `(?:19|20)\d{2}` at the head of the list. -/
def matchYear4 : List Char → Option (List Char × List Char)
  | c1 :: c2 :: c3 :: c4 :: rest =>
      if ((c1 == '1' && c2 == '9') || (c1 == '2' && c2 == '0')) &&
         isDigitCh c3 && isDigitCh c4 then
        some ([c1, c2, c3, c4], rest)
      else none
  | _ => none

/-- Candidates for the month pattern `(?:0?[1-9]|1[0-2])`, listed in JS
regex backtracking order (greedy `0?` first, then the bare digit, then
the `1[0-2]` alternative). -/
def monthCandidates : List Char → List (List Char × List Char)
  | [] => []
  | [c1] => if 49 ≤ c1.toNat && c1.toNat ≤ 57 then [([c1], [])] else []
  | c1 :: c2 :: rest =>
      (if c1 == '0' && 49 ≤ c2.toNat && c2.toNat ≤ 57 then [([c1, c2], rest)] else []) ++
      (if 49 ≤ c1.toNat && c1.toNat ≤ 57 then [([c1], c2 :: rest)] else []) ++
      (if c1 == '1' && (c2 == '0' || c2 == '1' || c2 == '2') then [([c1, c2], rest)] else [])

/-- Case-insensitive literal word match; returns the original consumed
characters and the rest. -/
def matchWordCI : List Char → List Char → Option (List Char × List Char)
  | [], rest => some ([], rest)
  | _ :: _, [] => none
  | x :: xs, c :: cs =>
      if toLowerCh c == x then
        match matchWordCI xs cs with
        | some (m, r) => some (c :: m, r)
        | none => none
      else none

/-- Month–separator–year candidates `(?:0?[1-9]|1[0-2])SEP(?:19|20)\d{2}`
with a required trailing word boundary, in backtracking order. -/
def monthSepYearCands (sepOk : Char → Bool) (l : List Char) : List (List Char × List Char) :=
  (monthCandidates l).filterMap (fun mr =>
    match mr.2 with
    | s :: r2 =>
        if sepOk s then
          match matchYear4 r2 with
          | some (y, r3) =>
              if boundaryBetween y.getLast? r3.head? then some (mr.1 ++ s :: y, r3) else none
          | none => none
        else none
    | [] => none)

/-- Embeds `normalizeNewlines`: unify CRLF and CR line breaks. -/
def normalizeNewlines (s : String) : String :=
  ⟨replaceAllSub ['\r', '\n'] ['\n'] (replaceAllSub ['\r'] ['\n'] (replaceAllSub ['\r', '\n'] ['\n'] s.data))⟩

/-- Pass 1 of `deglueDateTokens`: insert a space between a letter and a
glued year (the month-dot-year alternative carries a leading word
boundary which is checked against the letter). -/
def deglueAAux : Nat → List Char → List Char
  | 0, l => l
  | _ + 1, [] => []
  | fuel + 1, c :: rest =>
      if isLetterPL c then
        match matchYear4 rest with
        | some (y, r2) => c :: ' ' :: (y ++ deglueAAux fuel r2)
        | none =>
            match (if boundaryBetween (some c) rest.head? then
                     (monthSepYearCands (fun s => s == '.' || s == '/' || s == '-') rest).head?
                   else none) with
            | some (m, r2) => c :: ' ' :: (m ++ deglueAAux fuel r2)
            | none => c :: deglueAAux fuel rest
      else c :: deglueAAux fuel rest

/-- Year candidate with word boundaries on both sides. -/
def yearBoundCand (prev : Option Char) (l : List Char) : List (List Char × List Char) :=
  if boundaryBetween prev l.head? then
    match matchYear4 l with
    | some (y, r2) => if boundaryBetween y.getLast? r2.head? then [(y, r2)] else []
    | none => []
  else []

/-- Month-sep-year candidates with word boundaries on both sides. -/
def monthSepYearBoundCands (sepOk : Char → Bool) (prev : Option Char) (l : List Char) :
    List (List Char × List Char) :=
  if boundaryBetween prev l.head? then monthSepYearCands sepOk l else []

/-- Pass 2 of `deglueDateTokens`: a date token (with word boundaries)
followed by a letter.  With JS ASCII word boundaries this only fires
when the following letter is a Polish diacritic letter. -/
def deglueBAux : Nat → Option Char → List Char → List Char
  | 0, _, l => l
  | _ + 1, _, [] => []
  | fuel + 1, prev, c :: rest =>
      let l := c :: rest
      let lookLetter : List Char → Bool := fun r =>
        match r.head? with
        | some d => isLetterPL d
        | none => false
      let cands := yearBoundCand prev l ++
        monthSepYearBoundCands (fun s => s == '.' || s == '/' || s == '-') prev l
      match cands.find? (fun p => lookLetter p.2) with
      | some (m, r2) => m ++ ' ' :: deglueBAux fuel m.getLast? r2
      | none => c :: deglueBAux fuel (some c) rest

/-- Pass 3 of `deglueDateTokens`: a letter or digit glued to
`obecnie`/`present` (which must end at a word boundary). -/
def deglueCAux : Nat → List Char → List Char
  | 0, l => l
  | _ + 1, [] => []
  | fuel + 1, c :: rest =>
      if isLetterPL c || isDigitCh c then
        match (matchWordCI "obecnie".data rest).orElse (fun _ => matchWordCI "present".data rest) with
        | some (m, r2) =>
            if boundaryBetween m.getLast? r2.head? then c :: ' ' :: deglueCAux fuel rest
            else c :: deglueCAux fuel rest
        | none => c :: deglueCAux fuel rest
      else c :: deglueCAux fuel rest

/-- Pass 4 of `deglueDateTokens`: `obecnie`/`present` glued to a
following letter. -/
def deglueDAux : Nat → List Char → List Char
  | 0, l => l
  | _ + 1, [] => []
  | fuel + 1, c :: rest =>
      match (matchWordCI "obecnie".data (c :: rest)).orElse
              (fun _ => matchWordCI "present".data (c :: rest)) with
      | some (m, r2) =>
          if (match r2.head? with | some d => isLetterPL d | none => false) then
            m ++ ' ' :: deglueDAux fuel r2
          else c :: deglueDAux fuel rest
      | none => c :: deglueDAux fuel rest

/-- Embeds `deglueDateTokens` from src/app/api/chat/route.ts. -/
def deglueDateTokens (s : String) : String :=
  let t := normalizeNewlines s
  if (jsTrim t) = "" then t
  else
    let l1 := deglueAAux (t.data.length + 1) t.data
    let l2 := deglueBAux (l1.length + 1) none l1
    let l3 := deglueCAux (l2.length + 1) l2
    let l4 := deglueDAux (l3.length + 1) l3
    ⟨l4⟩

end CarrerMVP

namespace CarrerMVP

/-- Dash class `[-–—]`. -/
def isAnyDash (c : Char) : Bool := c == '-' || c == '–' || c == '—'

/-- Word alternative with word boundaries on both sides (ci). -/
def wordBoundCand (w : List Char) (prev : Option Char) (l : List Char) :
    List (List Char × List Char) :=
  if boundaryBetween prev l.head? then
    match matchWordCI w l with
    | some (m, r2) => if boundaryBetween m.getLast? r2.head? then [(m, r2)] else []
    | none => []
  else []

/-- Plain word alternative without boundaries (ci). -/
def wordPlainCand (w : List Char) (l : List Char) : List (List Char × List Char) :=
  match matchWordCI w l with
  | some (m, r2) => [(m, r2)]
  | none => []

/-- One match attempt of the `normalizeDateDashes` range pattern at the
current position; `compact` selects the second (no-whitespace) regex. -/
def matchNormDashAt (compact : Bool) (prev : Option Char) (l : List Char) :
    Option (List Char × List Char × List Char) :=
  let sepOk : Char → Bool := fun s => s == '.' || s == '/' || s == '-'
  let aCands := monthSepYearBoundCands sepOk prev l ++ yearBoundCand prev l
  aCands.findSome? (fun ar =>
    let r1 := ar.2
    let ws1 := if compact then [] else r1.takeWhile isWs
    let r2 := r1.drop ws1.length
    match r2 with
    | d :: r3 =>
        if isAnyDash d then
          let ws2 := if compact then [] else r3.takeWhile isWs
          let r4 := r3.drop ws2.length
          let prevB : Option Char := (ws2.getLast?).orElse (fun _ => some d)
          let bCands := monthSepYearBoundCands sepOk prevB r4 ++ yearBoundCand prevB r4 ++
            wordBoundCand "obecnie".data prevB r4 ++ wordBoundCand "present".data prevB r4
          (bCands.head?).map (fun br => (ar.1, br.1, br.2))
        else none
    | [] => none)

/-- Global scan applying the `normalizeDateDashes` replacement
`(a, b) ↦ a – b`. -/
def normDashAux (compact : Bool) : Nat → Option Char → List Char → List Char
  | 0, _, l => l
  | _ + 1, _, [] => []
  | fuel + 1, prev, c :: rest =>
      match matchNormDashAt compact prev (c :: rest) with
      | some (a, b, r) =>
          (a ++ (' ' :: '–' :: ' ' :: b)) ++ normDashAux compact fuel b.getLast? r
      | none => c :: normDashAux compact fuel (some c) rest

/-- Embeds `normalizeDateDashes` from src/app/api/chat/route.ts. -/
def normalizeDateDashes (s : String) : String :=
  let t := normalizeNewlines s
  if jsTrim t = "" then t
  else
    let l1 := normDashAux false (t.data.length + 1) none t.data
    let l2 := normDashAux true (l1.length + 1) none l1
    ⟨l2⟩

/-- `\b\d{2}SEP\d{4}\b` alternative (two digits, separator, four digits,
word boundaries on both sides). -/
def twoSepFourBoundCand (sepOk : Char → Bool) (prev : Option Char) (l : List Char) :
    List (List Char × List Char) :=
  if boundaryBetween prev l.head? then
    match l with
    | d1 :: d2 :: s :: d3 :: d4 :: d5 :: d6 :: rest =>
        if isDigitCh d1 && isDigitCh d2 && sepOk s && isDigitCh d3 && isDigitCh d4 &&
           isDigitCh d5 && isDigitCh d6 then
          if boundaryBetween (some d6) rest.head? then [([d1, d2, s, d3, d4, d5, d6], rest)]
          else []
        else []
    | _ => []
  else []

/-- One match attempt of the `countDateRanges` / `injectCvLineBreaks`
range pattern at the current position. -/
def matchCountRangeAt (prev : Option Char) (l : List Char) :
    Option (List Char × List Char × List Char) :=
  let aCands := twoSepFourBoundCand (fun s => s == '.' || s == '/' || s == '-') prev l ++
    twoSepFourBoundCand (fun s => s == '/') prev l ++ yearBoundCand prev l
  aCands.findSome? (fun ar =>
    let r1 := ar.2
    let ws1 := r1.takeWhile isWs
    let r2 := r1.drop ws1.length
    match r2 with
    | d :: r3 =>
        if d == '–' || d == '-' then
          let ws2 := r3.takeWhile isWs
          let r4 := r3.drop ws2.length
          let prevB : Option Char := (ws2.getLast?).orElse (fun _ => some d)
          let bCands := wordPlainCand "obecnie".data r4 ++ wordPlainCand "present".data r4 ++
            twoSepFourBoundCand (fun s => s == '.' || s == '/' || s == '-') prevB r4 ++
            twoSepFourBoundCand (fun s => s == '/') prevB r4 ++ yearBoundCand prevB r4
          (bCands.head?).map (fun br => (ar.1, br.1, br.2))
        else none
    | [] => none)

/-- Count the non-overlapping matches of the date-range pattern. -/
def countRangesAux : Nat → Option Char → List Char → Nat
  | 0, _, _ => 0
  | _ + 1, _, [] => 0
  | fuel + 1, prev, c :: rest =>
      match matchCountRangeAt prev (c :: rest) with
      | some (_, b, r) => 1 + countRangesAux fuel b.getLast? r
      | none => countRangesAux fuel (some c) rest

/-- Embeds `countDateRanges` from src/app/api/chat/route.ts. -/
def countDateRanges (s : String) : Nat :=
  let t := normalizeDateDashes (deglueDateTokens (normalizeNewlines s))
  countRangesAux (t.data.length + 1) none t.data

/-- Count newline characters (`(t.match(/\n/g) || []).length`). -/
def countNewlines (s : String) : Nat := (s.data.filter (· == '\n')).length

/-- Replace every date range with `\n a – b \n` (the first substitution
of `injectCvLineBreaks`). -/
def injectRangeBreaksAux : Nat → Option Char → List Char → List Char
  | 0, _, l => l
  | _ + 1, _, [] => []
  | fuel + 1, prev, c :: rest =>
      match matchCountRangeAt prev (c :: rest) with
      | some (a, b, r) =>
          ('\n' :: (a ++ (' ' :: '–' :: ' ' :: b)) ++ ['\n']) ++
            injectRangeBreaksAux fuel b.getLast? r
      | none => c :: injectRangeBreaksAux fuel (some c) rest

/-- Lookahead `(?=[A-ZĄĆĘŁŃÓŚŹŻ][A-ZĄĆĘŁŃÓŚŹŻ0-9 /&.]{2,}\s(?:\-|–)\s)`
of the ALL-CAPS header break in `injectCvLineBreaks`. -/
def capsHeaderLookahead (l : List Char) : Bool :=
  match l with
  | c :: rest =>
      if isUpperPL c then
        let classOk : Char → Bool := fun d =>
          isUpperPL d || isDigitCh d || d == ' ' || d == '/' || d == '&' || d == '.'
        let run := rest.takeWhile classOk
        (List.range (run.length + 1)).any (fun k =>
          2 ≤ k &&
          (match rest.drop k with
           | w1 :: d :: w2 :: _ => isWs w1 && (d == '-' || d == '–') && isWs w2
           | _ => false))
      else false
  | [] => false

/-- Second substitution of `injectCvLineBreaks`: break before ALL-CAPS
headers that follow sentence punctuation. -/
def capsBreakAux : Nat → List Char → List Char
  | 0, l => l
  | _ + 1, [] => []
  | fuel + 1, c :: rest =>
      if c == '.' || c == '!' || c == '?' || c == '…' || c == ':' || c == ';' || c == ')' then
        let wsRun := rest.takeWhile isWs
        if 1 ≤ wsRun.length && capsHeaderLookahead (rest.drop wsRun.length) then
          c :: '\n' :: capsBreakAux fuel (rest.drop wsRun.length)
        else c :: capsBreakAux fuel rest
      else c :: capsBreakAux fuel rest

/-- Collapse runs of `maxN + 1` or more newlines to exactly `maxN`. -/
def collapseNLRunsAux (maxN : Nat) : Nat → List Char → List Char
  | 0, l => l
  | _ + 1, [] => []
  | fuel + 1, c :: t =>
      if c == '\n' then
        let run := 1 + (t.takeWhile (· == '\n')).length
        let keep := if maxN + 1 ≤ run then maxN else run
        List.replicate keep '\n' ++ collapseNLRunsAux maxN fuel (t.dropWhile (· == '\n'))
      else c :: collapseNLRunsAux maxN fuel t

/-- Embeds `collapseBlankLines` from src/app/api/chat/route.ts. -/
def collapseBlankLines (s : String) (maxBlankLines : Nat) : String :=
  ⟨collapseNLRunsAux (maxBlankLines + 1) (s.data.length + 1) s.data⟩

/-- Embeds `injectCvLineBreaks` from src/app/api/chat/route.ts. -/
def injectCvLineBreaks (s : String) : String :=
  let t := normalizeDateDashes (deglueDateTokens (normalizeNewlines s))
  let nl := countNewlines t
  let dr := countDateRanges t
  if 4 ≤ nl then t
  else if (jsTrim t).data.length < 120 then t
  else if dr = 0 then t
  else
    let l1 := injectRangeBreaksAux (t.data.length + 1) none t.data
    let l2 := capsBreakAux (l1.length + 1) l1
    jsTrim (collapseBlankLines ⟨l2⟩ 1)

/-- Strip trailing spaces and tabs (regex `[ \t]+$`). -/
def trimEndSpTab (l : List Char) : List Char :=
  (l.reverse.dropWhile (fun c => c == ' ' || c == '\t')).reverse

/-- Embeds `dedupeConsecutiveLines` from src/app/api/chat/route.ts. -/
def dedupeConsecAux : List (List Char) → List Char → List (List Char)
  | [], _ => []
  | raw :: rest, prevKey =>
      let line := trimEndSpTab raw
      let key := lowerL (collapseWs (jsTrimL line))
      if key.isEmpty then [] :: dedupeConsecAux rest []
      else if key == prevKey then dedupeConsecAux rest prevKey
      else line :: dedupeConsecAux rest key

/-- Embeds `dedupeConsecutiveLines` from src/app/api/chat/route.ts. -/
def dedupeConsecutiveLines (s : String) : String :=
  ⟨joinLinesL (dedupeConsecAux (splitLinesL (normalizeNewlines s).data) [])⟩

/-- Embeds `stripLeadingIndentAllLines` (drop a leading run of two or
more spaces/tabs on every line). -/
def stripIndentLine (l : List Char) : List Char :=
  let run := l.takeWhile (fun c => c == ' ' || c == '\t')
  if 2 ≤ run.length then l.drop run.length else l

/-- Embeds `stripLeadingIndentAllLines` from src/app/api/chat/route.ts. -/
def stripLeadingIndentAllLines (s : String) : String :=
  ⟨joinLinesL ((splitLinesL (normalizeNewlines s).data).map stripIndentLine)⟩

/-- Full-line wrap stripping `^\s*M{1,3}(.+?)M{1,3}\s*$` → content. -/
def stripWrapMarker (marker : Char) (l : List Char) : List Char :=
  let ws := l.takeWhile isWs
  let rest := l.drop ws.length
  let runLen := (rest.takeWhile (· == marker)).length
  let tryJ : Nat → Option (List Char) := fun j =>
    if 1 ≤ j && j ≤ runLen then
      let afterMark := rest.drop j
      ((List.range (afterMark.length + 1)).find? (fun p =>
         1 ≤ p &&
         (let suf := afterMark.drop p
          (List.range 4).any (fun k =>
            1 ≤ k && k ≤ suf.length && ((suf.take k).all (· == marker)) &&
            ((suf.drop k).all isWs))))).map (fun p => afterMark.take p)
    else none
  match tryJ 3 with
  | some content => content
  | none =>
      match tryJ 2 with
      | some content => content
      | none =>
          match tryJ 1 with
          | some content => content
          | none => l

/-- Leading markdown quote marker removal `^\s*>\s+` → empty. -/
def stripQuoteMarker (l : List Char) : List Char :=
  let ws := l.takeWhile isWs
  match l.drop ws.length with
  | '>' :: r =>
      let ws2 := r.takeWhile isWs
      if 1 ≤ ws2.length then r.drop ws2.length else l
  | _ => l

/-- Per-line `stripWrap` of `stripMarkdownDecorationsAllLines`. -/
def stripWrapLine (l : List Char) : List Char :=
  stripQuoteMarker (stripWrapMarker '_' (stripWrapMarker '*' (jsTrimEndL l)))

/-- Embeds `stripMarkdownDecorationsAllLines` from src/app/api/chat/route.ts. -/
def stripMarkdownDecorationsAllLines (s : String) : String :=
  ⟨joinLinesL ((splitLinesL (normalizeNewlines s).data).map stripWrapLine)⟩

/-- Embeds `normalizeForUI` from src/app/api/chat/route.ts. -/
def normalizeForUI (s : String) (maxBlankLines : Nat) : String :=
  let lines := (splitLinesL (normalizeNewlines s).data).map (fun l =>
    let l2 := trimEndSpTab l
    if (jsTrimL l2).isEmpty then [] else l2)
  jsTrim (collapseBlankLines ⟨joinLinesL lines⟩ maxBlankLines)

end CarrerMVP

namespace CarrerMVP

/-- Generic left-to-right scan testing a matcher at every position. -/
def scanExists (m : Option Char → List Char → Bool) : Nat → Option Char → List Char → Bool
  | 0, _, _ => false
  | _ + 1, _, [] => false
  | fuel + 1, prev, c :: rest => m prev (c :: rest) || scanExists m fuel (some c) rest

/-- Generic left-to-right scan returning the first matcher result. -/
def scanFindSome {α : Type} (m : Option Char → List Char → Option α) :
    Nat → Option Char → List Char → Option α
  | 0, _, _ => none
  | _ + 1, _, [] => none
  | fuel + 1, prev, c :: rest =>
      match m prev (c :: rest) with
      | some a => some a
      | none => scanFindSome m fuel (some c) rest

/-- `\d{2}SEP\d{4}` alternative without word boundaries. -/
def twoSepFourPlainCand (sepOk : Char → Bool) (l : List Char) : List (List Char × List Char) :=
  match l with
  | d1 :: d2 :: s :: d3 :: d4 :: d5 :: d6 :: rest =>
      if isDigitCh d1 && isDigitCh d2 && sepOk s && isDigitCh d3 && isDigitCh d4 &&
         isDigitCh d5 && isDigitCh d6 then [([d1, d2, s, d3, d4, d5, d6], rest)]
      else []
  | _ => []

/-- `\b\d{4}\b` alternative (any four digits with word boundaries). -/
def fourDigitBoundCand (prev : Option Char) (l : List Char) : List (List Char × List Char) :=
  if boundaryBetween prev l.head? then
    match l with
    | d1 :: d2 :: d3 :: d4 :: rest =>
        if isDigitCh d1 && isDigitCh d2 && isDigitCh d3 && isDigitCh d4 then
          if boundaryBetween (some d4) rest.head? then [([d1, d2, d3, d4], rest)] else []
        else []
    | _ => []
  else []

/-- Range test `X\s*[–-]\s*(obecnie|present|X)` used by `isDateLineLike`. -/
def matchDateLineRangeAt (x : Option Char → List Char → List (List Char × List Char))
    (prev : Option Char) (l : List Char) : Bool :=
  (x prev l).any (fun ar =>
    let r1 := ar.2
    let ws1 := r1.takeWhile isWs
    match r1.drop ws1.length with
    | d :: r3 =>
        if d == '–' || d == '-' then
          let ws2 := r3.takeWhile isWs
          let r4 := r3.drop ws2.length
          let prevB : Option Char := (ws2.getLast?).orElse (fun _ => some d)
          !(wordPlainCand "obecnie".data r4 ++ wordPlainCand "present".data r4 ++
            x prevB r4).isEmpty
        else false
    | [] => false)

/-- Embeds `isDateLineLike` from src/app/api/chat/route.ts. -/
def isDateLineLike (line : String) : Bool :=
  let t := (jsTrim line).data
  if t.isEmpty then false
  else
    let x1 := twoSepFourBoundCand (fun s => s == '/')
    let x2 := twoSepFourBoundCand (fun s => s == '.')
    let x3 := fourDigitBoundCand
    scanExists (matchDateLineRangeAt x1) (t.length + 1) none t ||
    scanExists (matchDateLineRangeAt x2) (t.length + 1) none t ||
    scanExists (matchDateLineRangeAt x3) (t.length + 1) none t

/-- First-match attempt of `extractDatesFromLine`'s m1 regex
`(\d{2}[dot slash dash]\d{4})\s*[–-]\s*(obecnie|present|\d{2}[dot slash dash]\d{4})`. -/
def matchExtractM1At (_prev : Option Char) (l : List Char) : Option (List Char × List Char) :=
  let sepOk : Char → Bool := fun s => s == '.' || s == '/' || s == '-'
  (twoSepFourPlainCand sepOk l).findSome? (fun ar =>
    let r1 := ar.2
    let ws1 := r1.takeWhile isWs
    match r1.drop ws1.length with
    | d :: r3 =>
        if d == '–' || d == '-' then
          let ws2 := r3.takeWhile isWs
          let r4 := r3.drop ws2.length
          let bCands := wordPlainCand "obecnie".data r4 ++ wordPlainCand "present".data r4 ++
            twoSepFourPlainCand sepOk r4
          (bCands.head?).map (fun br => (ar.1, br.1))
        else none
    | [] => none)

/-- First-match attempt of `extractDatesFromLine`'s m2 regex
`(\b(?:19|20)\d{2}\b)\s*[–-]\s*(obecnie|present|\b(?:19|20)\d{2}\b)`. -/
def matchExtractM2At (prev : Option Char) (l : List Char) : Option (List Char × List Char) :=
  (yearBoundCand prev l).findSome? (fun ar =>
    let r1 := ar.2
    let ws1 := r1.takeWhile isWs
    match r1.drop ws1.length with
    | d :: r3 =>
        if d == '–' || d == '-' then
          let ws2 := r3.takeWhile isWs
          let r4 := r3.drop ws2.length
          let prevB : Option Char := (ws2.getLast?).orElse (fun _ => some d)
          let bCands := wordPlainCand "obecnie".data r4 ++ wordPlainCand "present".data r4 ++
            yearBoundCand prevB r4
          (bCands.head?).map (fun br => (ar.1, br.1))
        else none
    | [] => none)

/-- Embeds `extractDatesFromLine` from src/app/api/chat/route.ts. -/
def extractDatesFromLine (line : String) : String :=
  let t := normalizeDateDashes (deglueDateTokens (normalizeNewlines line))
  match scanFindSome matchExtractM1At (t.data.length + 1) none t.data with
  | some (a, b) => ⟨a ++ (' ' :: '–' :: ' ' :: b)⟩
  | none =>
      match scanFindSome matchExtractM2At (t.data.length + 1) none t.data with
      | some (a, b) => ⟨a ++ (' ' :: '–' :: ' ' :: b)⟩
      | none => ""

/-- Embeds `splitHeaderDatesAndInlineBody` from src/app/api/chat/route.ts. -/
def splitHeaderDatesAndInlineBody (line : String) : Option (String × String × String) :=
  let t := normalizeDateDashes (deglueDateTokens (jsTrim line))
  if t = "" then none
  else
    let l := t.data
    let sepOk : Char → Bool := fun s => s == '.' || s == '/' || s == '-'
    let res := (List.range l.length).findSome? (fun i =>
      if i = 0 then none
      else
        let before := l.take i
        let rest0 := l.drop i
        let ws1 := rest0.takeWhile isWs
        if ws1.isEmpty then none
        else
          let r1 := rest0.drop ws1.length
          let startCands := twoSepFourPlainCand sepOk r1 ++ yearBoundCand ws1.getLast? r1
          startCands.findSome? (fun sr =>
            let r2 := sr.2
            let ws2 := r2.takeWhile isWs
            match r2.drop ws2.length with
            | d :: r3 =>
                if d == '–' || d == '-' then
                  let ws3 := r3.takeWhile isWs
                  let r4 := r3.drop ws3.length
                  let prevB : Option Char := (ws3.getLast?).orElse (fun _ => some d)
                  let endCands := twoSepFourPlainCand sepOk r4 ++ yearBoundCand prevB r4 ++
                    wordPlainCand "obecnie".data r4 ++ wordPlainCand "present".data r4
                  endCands.findSome? (fun er =>
                    let r5 := er.2
                    let ws4 := r5.takeWhile isWs
                    some (before, sr.1, er.1, r5.drop ws4.length))
                else none
            | [] => none))
    match res with
    | some (before, sTxt, eTxt, after) =>
        let headerPart := jsTrim ⟨before⟩
        let dates := jsTrim ⟨sTxt ++ (' ' :: '–' :: ' ' :: eTxt)⟩
        let inlineBody := jsTrim ⟨after⟩
        if headerPart = "" then none
        else if dates = "" then none
        else if headerPart.data.length < 3 then none
        else some (headerPart, dates, inlineBody)
    | none => none

/-- Embeds `splitTrailingStartDate` from src/app/api/chat/route.ts. -/
def splitTrailingStartDate (line : String) : Option (String × String) :=
  let t := normalizeDateDashes (deglueDateTokens (jsTrim line))
  if t = "" then none
  else
    let l := t.data
    let sepOk : Char → Bool := fun s => s == '.' || s == '/' || s == '-'
    let res := (List.range l.length).findSome? (fun i =>
      if i = 0 then none
      else
        let before := l.take i
        let rest0 := l.drop i
        let ws1 := rest0.takeWhile isWs
        if ws1.isEmpty then none
        else
          let r1 := rest0.drop ws1.length
          let startCands := twoSepFourPlainCand sepOk r1 ++ yearBoundCand ws1.getLast? r1
          startCands.findSome? (fun sr =>
            if sr.2.all isWs then some (before, sr.1) else none))
    match res with
    | some (before, sTxt) =>
        let headerPart := jsTrim ⟨before⟩
        let startDate := jsTrim ⟨sTxt⟩
        if headerPart = "" then none
        else if startDate = "" then none
        else some (headerPart, startDate)
    | none => none

/-- Bullet-line test `^[-•*]\s+` on a (trimmed) line. -/
def isBulletL (l : List Char) : Bool :=
  match jsTrimL l with
  | c :: w :: _ => (c == '-' || c == '•' || c == '*') && isWs w
  | _ => false

/-- Embeds `isBulletLine` from src/app/api/chat/route.ts. -/
def isBulletLine (line : String) : Bool := isBulletL line.data

/-- A run of at least three consecutive upper-case (ASCII/Polish) letters. -/
def hasCapsRun3 : List Char → Bool
  | a :: b :: c :: rest =>
      (isUpperPL a && isUpperPL b && isUpperPL c) || hasCapsRun3 (b :: c :: rest)
  | _ => false

/-- Pattern `\s[-–]\s` anywhere in the list. -/
def hasWsDashWs : List Char → Bool
  | a :: b :: c :: rest =>
      (isWs a && (b == '-' || b == '–') && isWs c) || hasWsDashWs (b :: c :: rest)
  | _ => false

/-- Embeds `hasCompanySuffix` from src/app/api/chat/route.ts
(`\b(sp\. z o\.o\.|s\.a\.|ltd|inc|gmbh|s\.r\.o\.|kft)\b`, ci). -/
def hasCompanySuffix (line : String) : Bool :=
  let t := (jsTrim line).data
  let alts := ["sp. z o.o.", "s.a.", "ltd", "inc", "gmbh", "s.r.o.", "kft"].map String.data
  scanExists (fun prev l =>
    if boundaryBetween prev l.head? then
      alts.any (fun a =>
        match matchWordCI a l with
        | some (m, r) => boundaryBetween m.getLast? r.head?
        | none => false)
    else false) (t.length + 1) none t

/-- Sentence-final punctuation test `[.!?…:;)]\s*$` on a trimmed line. -/
def endsSentenceL (l : List Char) : Bool :=
  match (jsTrimL l).getLast? with
  | some c => c == '.' || c == '!' || c == '?' || c == '…' || c == ':' || c == ';' || c == ')'
  | none => false

/-- Continuation-start test `^[a-ząćęłńóśźż0-9(]` on a trimmed line. -/
def startsLowerOrContL (l : List Char) : Bool :=
  match jsTrimL l with
  | c :: _ => isLowerPL c || isDigitCh c || c == '('
  | [] => false

/-- Embeds the local `isHeadingLike` predicate of `unwrapHardWrap`. -/
def isHeadingLikeL (l : List Char) : Bool :=
  let t := jsTrimL l
  if t.isEmpty then false
  else if (match t.head? with | some c => c == '(' | none => false) then false
  else if isBulletL t then false
  else if t.length < 4 || 160 < t.length then false
  else if hasCapsRun3 t && t == upperL t then true
  else if hasWsDashWs t then true
  else if hasCompanySuffix ⟨t⟩ then true
  else false

/-- Line-merging loop of `unwrapHardWrap`. -/
def unwrapAux : Nat → List (List Char) → List (List Char)
  | 0, ls => ls
  | _ + 1, [] => []
  | fuel + 1, cur :: rest =>
      let next := rest.headD []
      let curT := jsTrimL cur
      let nextT := jsTrimL next
      if curT.isEmpty then [] :: unwrapAux fuel rest
      else if isBulletL curT || isHeadingLikeL curT || startsWithL "=== ".data curT then
        curT :: unwrapAux fuel rest
      else if !nextT.isEmpty && !isBulletL nextT && !isHeadingLikeL nextT &&
              !startsWithL "=== ".data nextT && !endsSentenceL curT &&
              startsLowerOrContL nextT then
        jsTrimL (collapseWs (curT ++ ' ' :: nextT)) :: unwrapAux fuel (rest.drop 1)
      else curT :: unwrapAux fuel rest

/-- Embeds `unwrapHardWrap` from src/app/api/chat/route.ts. -/
def unwrapHardWrap (s : String) : String :=
  let raw := normalizeNewlines s
  if jsTrim raw = "" then raw
  else
    let lines := splitLinesL raw.data
    let out := unwrapAux (lines.length + 1) lines
    jsTrim (collapseBlankLines ⟨joinLinesL out⟩ 1)

/-- Embeds `preprocessCvSource` from src/app/api/chat/route.ts: the
canonical normalisation pipeline applied to all CV text. -/
def preprocessCvSource (s : String) : String :=
  let t0 := jsTrim (normalizeNewlines s)
  if t0 = "" then ""
  else
    let t1 := stripLeadingIndentAllLines t0
    let t2 := stripMarkdownDecorationsAllLines t1
    let t3 := deglueDateTokens t2
    let t4 := normalizeDateDashes t3
    let t5 := injectCvLineBreaks t4
    let t6 := dedupeConsecutiveLines t5
    let t7 := collapseBlankLines t6 1
    let t8 := unwrapHardWrap t7
    let t9 := deglueDateTokens t8
    let t10 := normalizeDateDashes t9
    let t11 := dedupeConsecutiveLines t10
    let t12 := collapseBlankLines t11 1
    jsTrim t12

end CarrerMVP

namespace CarrerMVP

/-- Alternation with word boundaries around the whole group (ci input
already lower-cased by the callers that need it). -/
def matchAltsBound (alts : List (List Char)) (prev : Option Char) (l : List Char) : Bool :=
  if boundaryBetween prev l.head? then
    alts.any (fun a =>
      match matchWordCI a l with
      | some (m, r) => boundaryBetween m.getLast? r.head?
      | none => false)
  else false

/-- Embeds `looksLikeActionSentence` from src/app/api/chat/route.ts. -/
def looksLikeActionSentence (line : String) : Bool :=
  let raw := lowerL (jsTrimL line.data)
  if raw.length < 12 then false
  else
    let dropLead : List Char → Option (List Char) := fun w =>
      match matchWordCI w raw with
      | some (_, r) =>
          let ws := r.takeWhile isWs
          if 1 ≤ ws.length then some (r.drop ws.length) else none
      | none => none
    let t := match dropLead "obecnie".data with
      | some r => r
      | none =>
          match dropLead "currently".data with
          | some r => r
          | none => raw
    let stems := ["prowadzen", "zarzadz", "koordyn", "wdra", "uruchom", "optymaliz",
      "analiz", "monitor", "raport", "audyt", "tworz", "zbudow", "standaryz",
      "automatyz", "planow", "priorytet", "manage", "led", "deliver", "own", "build",
      "optimise", "optimize", "analyse", "analyze", "report", "coordinate",
      "implement"].map String.data
    stems.any (fun st => startsWithL st t)

/-- Embeds `isAllCapsLine` from src/app/api/chat/route.ts. -/
def isAllCapsLine (line : String) : Bool :=
  let t := jsTrimL line.data
  if t.isEmpty then false
  else
    let letters := t.filter isLetterPL
    if letters.length < 6 then false
    else t == upperL t

/-- Embeds `hasDashSeparator` from src/app/api/chat/route.ts. -/
def hasDashSeparator (line : String) : Bool := hasWsDashWs (jsTrim line).data

/-- Embeds `hasDateInSameLine` from src/app/api/chat/route.ts. -/
def hasDateInSameLine (line : String) : Bool :=
  let t := jsTrim line
  if t = "" then false
  else extractDatesFromLine t ≠ "" || isDateLineLike t

/-- Embeds `hasJobTitleKeyword` from src/app/api/chat/route.ts. -/
def hasJobTitleKeyword (line : String) : Bool :=
  let t := lowerL line.data
  let alts := ["specjalist", "asystent", "manager", "kierownik", "dyrektor",
    "analityk", "koordynator", "inżynier", "inzynier", "project", "account",
    "sales", "sprzedaż", "sprzedaz", "owner", "lead", "consultant", "pm",
    "po"].map String.data
  scanExists (matchAltsBound alts) (t.length + 1) none t

/-- Pattern `,\s*[A-ZĄĆĘŁŃÓŚŹŻ][a-ząćęłńóśźż-]{2,}` (the `hasCityish`
test of `looksLikeCompanyLocationLine`). -/
def hasCityish (l : List Char) : Bool :=
  scanExists (fun _ s =>
    match s with
    | ',' :: r =>
        let ws := r.takeWhile isWs
        (match r.drop ws.length with
         | c :: r2 =>
             isUpperPL c &&
             2 ≤ (r2.takeWhile (fun d => isLowerPL d || d == '-')).length
         | [] => false)
    | _ => false) (l.length + 1) none l

/-- Pattern `\s\|\s` anywhere in the list. -/
def hasWsPipeWs : List Char → Bool
  | a :: b :: c :: rest => (isWs a && b == '|' && isWs c) || hasWsPipeWs (b :: c :: rest)
  | _ => false

/-- Prefix test `^firma\b` (ci). -/
def startsWithFirma (l : List Char) : Bool :=
  match matchWordCI "firma".data l with
  | some (m, r) => boundaryBetween m.getLast? r.head?
  | none => false

/-- Embeds `looksLikeCompanyLocationLine` from src/app/api/chat/route.ts. -/
def looksLikeCompanyLocationLine (line : String) : Bool :=
  let t := jsTrim line
  if t = "" then false
  else
    let cityish := hasCityish t.data
    let pipe := hasWsPipeWs t.data
    let date := isDateLineLike t || extractDatesFromLine t ≠ ""
    let firma := startsWithFirma t.data
    if firma && date then true
    else if cityish && pipe && date && !hasJobTitleKeyword t then true
    else false

/-- Split a character list into whitespace-separated words. -/
def splitWsWordsAux : Nat → List Char → List (List Char)
  | 0, _ => []
  | _ + 1, [] => []
  | fuel + 1, l =>
      let l1 := l.dropWhile isWs
      if l1.isEmpty then []
      else (l1.takeWhile (fun c => !isWs c)) ::
        splitWsWordsAux fuel (l1.dropWhile (fun c => !isWs c))

/-- Embeds `isTitleCaseish` from src/app/api/chat/route.ts. -/
def isTitleCaseish (line : String) : Bool :=
  let t := jsTrimL line.data
  if t.isEmpty then false
  else if t.any (fun c => c == '(' || c == ')' || c == ',' || c == ';' || c == ':') then false
  else
    let words := splitWsWordsAux (t.length + 1) t
    if words.length < 2 || 12 < words.length then false
    else
      let caps := (words.filter (fun w =>
        match w.head? with | some c => isUpperPL c | none => false)).length
      words.length ≤ 2 * caps

/-- Embeds `looksLikeRoleHeaderLine` from src/app/api/chat/route.ts. -/
def looksLikeRoleHeaderLine (line nextLine : String) : Bool :=
  let l := jsTrim line
  let n := jsTrim nextLine
  if l = "" then false
  else if isBulletLine l then false
  else if (match l.data.head? with | some c => c == '(' | none => false) then false
  else if (match l.data.head? with
           | some c => isLowerPL c || isDigitCh c
           | none => false) then false
  else if looksLikeActionSentence l then false
  else if looksLikeCompanyLocationLine l then false
  else
    let dashSep := hasDashSeparator l
    let co := hasCompanySuffix l
    let caps := isAllCapsLine l
    let job := hasJobTitleKeyword l
    let dateNext := isDateLineLike n
    let dateInline := hasDateInSameLine l
    if dateNext then
      if l.data.length < 4 || 180 < l.data.length then false
      else dashSep || co || caps || job || isTitleCaseish l
    else if dateInline && dashSep then co || caps || (job && isTitleCaseish l)
    else if dashSep && co then true
    else if dashSep && job then
      (if 180 < l.data.length then false else caps || isTitleCaseish l)
    else if dashSep && l.data.length ≤ 180 && (co || caps || isTitleCaseish l) && job then
      true
    else false

/-- Find the first `\s(\-|–)\s` separator; returns its index and text. -/
def findWsDashWsIdx : List Char → Nat → Option (Nat × List Char)
  | a :: b :: c :: rest, i =>
      if isWs a && (b == '-' || b == '–') && isWs c then some (i, [a, b, c])
      else findWsDashWsIdx (b :: c :: rest) (i + 1)
  | _, _ => none

/-- Find the first `\s\|\s` separator; returns its index and text. -/
def findWsPipeWsIdx : List Char → Nat → Option (Nat × List Char)
  | a :: b :: c :: rest, i =>
      if isWs a && b == '|' && isWs c then some (i, [a, b, c])
      else findWsPipeWsIdx (b :: c :: rest) (i + 1)
  | _, _ => none

/-- Embeds `splitTitleCompany` from src/app/api/chat/route.ts. -/
def splitTitleCompany (titleLine : String) : String × String :=
  let t := jsTrim titleLine
  match findWsDashWsIdx t.data 0 with
  | some (idx, m0) =>
      let idx2 := (findSubIdx m0 t.data).getD idx
      let left := jsTrim ⟨t.data.take idx2⟩
      let right := jsTrim ⟨t.data.drop (idx2 + m0.length)⟩
      if right.data.length < 2 then (t, "") else (left, right)
  | none =>
      match findWsPipeWsIdx t.data 0 with
      | some (idx, m0) =>
          let idx2 := (findSubIdx m0 t.data).getD idx
          let left := jsTrim ⟨t.data.take idx2⟩
          let right := jsTrim ⟨t.data.drop (idx2 + m0.length)⟩
          if hasJobTitleKeyword left && 2 ≤ right.data.length then (left, right) else (t, "")
      | none => (t, "")

/-- Prefix test `^\s*(obecnie|present)\b` (ci). -/
def startsWithObecnie (s : String) : Bool :=
  let l := s.data.dropWhile isWs
  match (matchWordCI "obecnie".data l).orElse (fun _ => matchWordCI "present".data l) with
  | some (m, r) => boundaryBetween m.getLast? r.head?
  | none => false

/-- The per-role record produced by the segmenter (`ParsedRoleBlock`). -/
structure ParsedRoleBlock where
  titleLine : String
  title : String
  company : String
  datesLine : String
  bodyLines : List String
  raw : String
deriving Repr, DecidableEq

/-- Body-line collection loop shared by both branches of
`parseExperienceIntoRoleBlocks` (runs until the next accepted header). -/
def collectBodyAux : Nat → List String → (List String × List String)
  | 0, ls => ([], ls)
  | _ + 1, [] => ([], [])
  | fuel + 1, cur0 :: rest =>
      let cur := jsTrim cur0
      let nxt := jsTrim (rest.headD "")
      if looksLikeRoleHeaderLine cur nxt then ([], cur0 :: rest)
      else
        let br := collectBodyAux fuel rest
        ((if cur ≠ "" then [cur] else []) ++ br.1, br.2)

/-- Builds the `raw` field `[titleLine, datesLine, ...body].filter(Boolean).join('\n').trim()`. -/
def blockRaw (titleLine datesLine : String) (bodyLines : List String) : String :=
  jsTrim ⟨joinLinesL ((([titleLine, datesLine] ++ bodyLines).filter (· ≠ "")).map String.data)⟩

/-- Main loop of `parseExperienceIntoRoleBlocks`. -/
def parseBlocksAux : Nat → List String → List ParsedRoleBlock
  | 0, _ => []
  | _ + 1, [] => []
  | fuel + 1, line0 :: rest =>
      let lineRaw := jsTrim line0
      let nextRaw := jsTrim (rest.headD "")
      match splitHeaderDatesAndInlineBody lineRaw with
      | some (titleLine, datesLine, inlineBody) =>
          let tc := splitTitleCompany titleLine
          let br := collectBodyAux (rest.length + 1) rest
          let bodyLines := (if inlineBody ≠ "" then [inlineBody] else []) ++ br.1
          ⟨titleLine, tc.1, tc.2, datesLine, bodyLines,
            blockRaw titleLine datesLine bodyLines⟩ :: parseBlocksAux fuel br.2
      | none =>
          if !looksLikeRoleHeaderLine lineRaw nextRaw then parseBlocksAux fuel rest
          else
            let hdr : String × String × List String :=
              if isDateLineLike nextRaw then (lineRaw, nextRaw, rest.drop 1)
              else
                match splitTrailingStartDate lineRaw with
                | some (hp, sd) =>
                    if startsWithObecnie nextRaw then (hp, sd ++ " – obecnie", rest)
                    else (lineRaw, "", rest)
                | none => (lineRaw, "", rest)
            let titleLine := hdr.1
            let datesLine := hdr.2.1
            let tc := splitTitleCompany titleLine
            let br := collectBodyAux (hdr.2.2.length + 1) hdr.2.2
            ⟨titleLine, tc.1, tc.2, datesLine, br.1,
              blockRaw titleLine datesLine br.1⟩ :: parseBlocksAux fuel br.2

/-- Embeds `parseExperienceIntoRoleBlocks` from src/app/api/chat/route.ts. -/
def parseExperienceIntoRoleBlocks (input : String) : List ParsedRoleBlock :=
  let text := preprocessCvSource (jsTrim input)
  if text = "" then []
  else
    let lines := (splitLinesL (normalizeNewlines text).data).map (fun l => (⟨jsTrimEndL l⟩ : String))
    parseBlocksAux (lines.length + 1) lines

/-- `Role` = `{ title, dates }` from src/app/api/chat/route.ts. -/
structure Role where
  title : String
  dates : String
deriving Repr, DecidableEq

/-- Embeds `stripDiacritics` (NFD + combining-mark removal) restricted to
the Polish diacritic letters; `ł`/`Ł` have no canonical decomposition and
are left unchanged by NFD, which the key functions then discard. -/
def stripDiacriticCh (c : Char) : Char :=
  if c == 'ą' then 'a' else if c == 'ć' then 'c' else if c == 'ę' then 'e'
  else if c == 'ń' then 'n' else if c == 'ó' then 'o' else if c == 'ś' then 's'
  else if c == 'ź' then 'z' else if c == 'ż' then 'z'
  else if c == 'Ą' then 'A' else if c == 'Ć' then 'C' else if c == 'Ę' then 'E'
  else if c == 'Ń' then 'N' else if c == 'Ó' then 'O' else if c == 'Ś' then 'S'
  else if c == 'Ź' then 'Z' else if c == 'Ż' then 'Z'
  else c

/-- Embeds `stripDiacritics` from src/app/api/chat/route.ts. -/
def stripDiacritics (s : String) : String := ⟨s.data.map stripDiacriticCh⟩

/-- Embeds `keyify` from src/app/api/chat/route.ts. -/
def keyify (s : String) : String :=
  ⟨(lowerL (stripDiacritics s).data).filter
    (fun c => (97 ≤ c.toNat && c.toNat ≤ 122) || isDigitCh c)⟩

/-- The `norm` helper of `roleKey`. -/
def roleKeyNorm (s : String) : String :=
  ⟨(jsTrimL (collapseWs (lowerL (stripDiacritics s).data))).filter
    (fun c => (97 ≤ c.toNat && c.toNat ≤ 122) || isDigitCh c)⟩

/-- Embeds `roleKey` from src/app/api/chat/route.ts. -/
def roleKey (title dates : String) : String :=
  roleKeyNorm title ++ "|" ++ roleKeyNorm dates

/-- Loop of `dedupeRoles` with the `seen` key set. -/
def dedupeRolesAux : List String → List Role → List Role
  | _, [] => []
  | seen, r :: rest =>
      let title := jsTrim r.title
      let dates0 := jsTrim r.dates
      let dates := if dates0 = "" then "daty do uzupełnienia" else dates0
      if title = "" then dedupeRolesAux seen rest
      else
        let k := roleKey title dates
        if seen.contains k then dedupeRolesAux seen rest
        else ⟨title, dates⟩ :: dedupeRolesAux (k :: seen) rest

/-- Embeds `dedupeRoles` from src/app/api/chat/route.ts. -/
def dedupeRoles (roles : List Role) : List Role := dedupeRolesAux [] roles

end CarrerMVP

namespace CarrerMVP

/-- `\b\d{1,2}[./]\d{4}\b` candidates (greedy two digits first). -/
def d12SepFourBoundCands (prev : Option Char) (l : List Char) : List (List Char × List Char) :=
  if boundaryBetween prev l.head? then
    (match l with
     | d1 :: d2 :: s :: d3 :: d4 :: d5 :: d6 :: rest =>
         if isDigitCh d1 && isDigitCh d2 && (s == '.' || s == '/') && isDigitCh d3 &&
            isDigitCh d4 && isDigitCh d5 && isDigitCh d6 &&
            boundaryBetween (some d6) rest.head? then
           [([d1, d2, s, d3, d4, d5, d6], rest)]
         else []
     | _ => []) ++
    (match l with
     | d1 :: s :: d3 :: d4 :: d5 :: d6 :: rest =>
         if isDigitCh d1 && (s == '.' || s == '/') && isDigitCh d3 && isDigitCh d4 &&
            isDigitCh d5 && isDigitCh d6 && boundaryBetween (some d6) rest.head? then
           [([d1, s, d3, d4, d5, d6], rest)]
         else []
     | _ => [])
  else []

/-- Separator `(?:-|–|—|do|to)` of `looksLikeDateRangeLoose` (ci). -/
def looseRangeSep (l : List Char) : Option (List Char × List Char) :=
  match l with
  | '-' :: r => some (['-'], r)
  | '–' :: r => some (['–'], r)
  | '—' :: r => some (['—'], r)
  | _ => (matchWordCI "do".data l).orElse (fun _ => matchWordCI "to".data l)

/-- One match attempt of the `looksLikeDateRangeLoose` pattern. -/
def matchLooseRangeAt (prev : Option Char) (l : List Char) : Bool :=
  (d12SepFourBoundCands prev l ++ fourDigitBoundCand prev l).any (fun ar =>
    let r1 := ar.2
    let ws1 := r1.takeWhile isWs
    match looseRangeSep (r1.drop ws1.length) with
    | some (sep, r2) =>
        let ws2 := r2.takeWhile isWs
        let r3 := r2.drop ws2.length
        let prevB : Option Char := (ws2.getLast?).orElse (fun _ => sep.getLast?)
        !(d12SepFourBoundCands prevB r3 ++ fourDigitBoundCand prevB r3 ++
          wordPlainCand "obecnie".data r3 ++ wordPlainCand "present".data r3 ++
          wordPlainCand "now".data r3).isEmpty
    | none => false)

/-- Embeds `looksLikeDateRangeLoose` from src/app/api/chat/route.ts. -/
def looksLikeDateRangeLoose (s : String) : Bool :=
  let t := (jsTrim s).data
  scanExists matchLooseRangeAt (t.length + 1) none t

/-- Split on the regex `\s[-–—]\s` (separators removed, JS `split`). -/
def splitWsDashWsAux : Nat → List Char → List Char → List (List Char)
  | 0, acc, l => [acc.reverse ++ l]
  | fuel + 1, acc, a :: b :: c :: rest =>
      if isWs a && (b == '-' || b == '–' || b == '—') && isWs c then
        acc.reverse :: splitWsDashWsAux fuel [] rest
      else splitWsDashWsAux fuel (a :: acc) (b :: c :: rest)
  | _, acc, l => [acc.reverse ++ l]

/-- Split a string on `\s[-–—]\s`. -/
def splitWsDashWs (s : String) : List String :=
  (splitWsDashWsAux (s.data.length + 1) [] s.data).map (fun l => (⟨l⟩ : String))

/-- JS `String.prototype.split` on a non-empty plain-string separator:
split at each non-overlapping occurrence, left to right (fuel-based). -/
def splitOnSubAux (sep : List Char) : Nat → List Char → List Char → List (List Char)
  | 0, acc, rest => [acc.reverse ++ rest]
  | fuel + 1, acc, rest =>
      if !sep.isEmpty && startsWithL sep rest then
        acc.reverse :: splitOnSubAux sep fuel [] (rest.drop sep.length)
      else match rest with
        | [] => [acc.reverse]
        | c :: cs => splitOnSubAux sep fuel (c :: acc) cs

/-- JS `String.prototype.split` on a plain-string separator, as strings. -/
def splitOnStr (sep s : String) : List String :=
  (splitOnSubAux sep.data (s.data.length + 1) [] s.data).map (fun l => (⟨l⟩ : String))

/-- Embeds `tryParseOneLineRoleHeader` from src/app/api/chat/route.ts. -/
def tryParseOneLineRoleHeader (line : String) : Option Role :=
  let l := jsTrim line
  if l = "" || !includesStr l "|" then none
  else
    let parts := splitOnStr "|" l
    if parts.length < 2 then none
    else
      let left := jsTrim (parts.headD "")
      let datesPart := jsTrim (String.intercalate "|" (parts.drop 1))
      if !looksLikeDateRangeLoose datesPart then none
      else
        let dashSplit := splitWsDashWs left
        let first := dashSplit.headD ""
        let title := jsTrim (if first = "" then left else first)
        if title.data.length < 3 then none
        else
          let e := extractDatesFromLine datesPart
          let dates := if e ≠ "" then e
            else if datesPart ≠ "" then datesPart
            else "daty do uzupełnienia"
          some ⟨title, dates⟩

/-- Embeds `_cleanSpaces` / the local `clean` helpers (collapse
whitespace runs and trim). -/
def cleanSpaces (s : String) : String := jsTrim ⟨collapseWs s.data⟩

/-- Sequencing combinator for ordered regex-candidate lists. -/
def seqCands (xs : List (List Char × List Char))
    (f : List Char → List (List Char × List Char)) : List (List Char × List Char) :=
  xs.flatMap (fun x => (f x.2).map (fun y => (x.1 ++ y.1, y.2)))

/-- Literal case-insensitive token as a candidate list. -/
def litCI (w : String) (l : List Char) : List (List Char × List Char) :=
  match matchWordCI w.data l with
  | some p => [p]
  | none => []

/-- Optional dot `\.?` in greedy order. -/
def optDotCands (l : List Char) : List (List Char × List Char) :=
  match l with
  | '.' :: r => [(['.'], r), ([], '.' :: r)]
  | _ => [([], l)]

/-- Greedy whitespace run `\s*` as a single candidate. -/
def wsRunCand (l : List Char) : List (List Char × List Char) :=
  [(l.takeWhile isWs, l.dropWhile isWs)]

/-- Alternative `sp\.?\s*z\.?\s*o\.?\s*o\.?` of the optional-dot company
suffix regex. -/
def spZooCands (l : List Char) : List (List Char × List Char) :=
  seqCands (seqCands (seqCands (seqCands (seqCands (seqCands (seqCands
    (seqCands (seqCands (litCI "sp" l) optDotCands) wsRunCand) (litCI "z"))
    optDotCands) wsRunCand) (litCI "o")) optDotCands) wsRunCand)
    (fun r => seqCands (litCI "o" r) optDotCands)

/-- Alternative `s\.?\s*a\.?` of the optional-dot company suffix regex. -/
def saCands (l : List Char) : List (List Char × List Char) :=
  seqCands (seqCands (seqCands (litCI "s" l) optDotCands) wsRunCand)
    (fun r => seqCands (litCI "a" r) optDotCands)

/-- Match attempt of
`\b(sp\.?\s*z\.?\s*o\.?\s*o\.?|s\.?\s*a\.?|ltd|inc|gmbh|ag|plc)\b` (ci)
at one position. -/
def matchCompanySuffixOptAt (prev : Option Char) (l : List Char) : Bool :=
  if boundaryBetween prev l.head? then
    let alts := [spZooCands l, saCands l, litCI "ltd" l, litCI "inc" l,
      litCI "gmbh" l, litCI "ag" l, litCI "plc" l]
    alts.any (fun cands => cands.any (fun p =>
      !p.1.isEmpty && boundaryBetween p.1.getLast? p.2.head?))
  else false

/-- The optional-dot company suffix regex used by the one-line header
parser and `extractRolesFromCvText`. -/
def hasCompanySuffixOpt (s : String) : Bool :=
  scanExists matchCompanySuffixOptAt (s.data.length + 1) none s.data

/-- Role-word alternation of `_looksLikeLocationOrCompany`,
`_roleTitleScore` and `extractRolesFromCvText`. -/
def roleWordAlts : List (List Char) :=
  ["manager", "specialist", "developer", "engineer", "analyst", "lead", "head",
   "consultant", "designer", "marketing", "sales", "support", "qa", "admin",
   "assistant", "coordinator", "director", "executive", "intern", "trainee",
   "junior", "senior", "specjalista", "kierownik", "inżynier", "analityk",
   "lider", "dyrektor", "asystent", "koordynator", "stażysta",
   "praktykant"].map String.data

/-- Word-bounded role-word test. -/
def hasRoleWord (s : String) : Bool :=
  scanExists (matchAltsBound roleWordAlts) (s.data.length + 1) none s.data

/-- Location-hint alternation (classes expanded). -/
def locationHintAlts : List (List Char) :=
  ["remote", "hybrid", "onsite", "on-site", "warszawa", "krakow", "kraków",
   "wrocław", "wroclaw", "gdansk", "gdańsk", "poznan", "poznań",
   "łodz", "łodź", "łódz", "łódź", "lodz", "lodź", "lódz", "lódź",
   "poland", "emea", "europe", "uk", "germany", "france", "czech"].map String.data

/-- Word-bounded location-hint test. -/
def hasLocationHint (s : String) : Bool :=
  scanExists (matchAltsBound locationHintAlts) (s.data.length + 1) none s.data

/-- Embeds `_looksLikeLocationOrCompany` from src/app/api/chat/route.ts
(the trailing branches all return true, as in the source). -/
def looksLikeLocationOrCompanyU (x : String) : Bool :=
  let s := cleanSpaces x
  if s = "" then true
  else if hasRoleWord s then false
  else if includesStr s "," then true
  else if hasCompanySuffixOpt s then true
  else if hasLocationHint s then true
  else true

/-- Embeds `_roleTitleScore` from src/app/api/chat/route.ts. -/
def roleTitleScore (x : String) : Int :=
  let s := cleanSpaces x
  if s = "" then -999
  else
    (if hasRoleWord s then 4 else 0) +
    (if s.data.length ≤ 30 then 2 else 0) +
    (if 45 < s.data.length then -2 else 0) +
    (if includesStr s "," then -3 else 0) +
    (if hasCompanySuffixOpt s then -3 else 0)

/-- Month with `\s*` around the separator
`(?:0?[1-9]|1[0-2])\s*[dot slash dash]\s*(?:19|20)\d{2}` (matched text kept verbatim
for slicing). -/
def monthWsSepYearCands2 (l : List Char) : List (List Char × List Char) :=
  (monthCandidates l).filterMap (fun mr =>
    let r1 := mr.2
    let ws1 := r1.takeWhile isWs
    match r1.drop ws1.length with
    | s :: r2 =>
        if s == '.' || s == '/' || s == '-' then
          let ws2 := r2.takeWhile isWs
          match matchYear4 (r2.drop ws2.length) with
          | some (y, r3) => some (mr.1 ++ ws1 ++ s :: (ws2 ++ y), r3)
          | none => none
        else none
    | [] => none)

/-- Separator `(?:–|-|—|to|do)` of `DATE_RANGE_RE` (ci). -/
def dateRangeRESep (l : List Char) : Option (List Char × List Char) :=
  match l with
  | '–' :: r => some (['–'], r)
  | '-' :: r => some (['-'], r)
  | '—' :: r => some (['—'], r)
  | _ => (matchWordCI "to".data l).orElse (fun _ => matchWordCI "do".data l)

/-- One match attempt of `DATE_RANGE_RE` at a position; returns the
matched text and the rest. -/
def matchDateRangeREAt (prev : Option Char) (l : List Char) : Option (List Char × List Char) :=
  if boundaryBetween prev l.head? then
    let aCands := monthWsSepYearCands2 l ++
      (match matchYear4 l with | some p => [p] | none => [])
    aCands.findSome? (fun ar =>
      let r1 := ar.2
      let ws1 := r1.takeWhile isWs
      match dateRangeRESep (r1.drop ws1.length) with
      | some (sep, r2) =>
          let ws2 := r2.takeWhile isWs
          let r3 := r2.drop ws2.length
          let bCands := monthWsSepYearCands2 r3 ++
            (match matchYear4 r3 with | some p => [p] | none => []) ++
            wordPlainCand "present".data r3 ++ wordPlainCand "obecnie".data r3 ++
            wordPlainCand "current".data r3
          bCands.findSome? (fun br =>
            if boundaryBetween br.1.getLast? br.2.head? then
              some (ar.1 ++ ws1 ++ sep ++ ws2 ++ br.1, br.2)
            else none)
      | none => none)
  else none

/-- First `DATE_RANGE_RE` match in a string. -/
def dateRangeREFirst (s : String) : Option (List Char) :=
  (scanFindSome (fun p l => matchDateRangeREAt p l) (s.data.length + 1) none s.data).map
    (fun r => r.1)

/-- `DATE_RANGE_RE.test`. -/
def dateRangeRETest (s : String) : Bool := (dateRangeREFirst s).isSome

/-- Last case-insensitive occurrence index of a substring. -/
def lastSubIdxCI (needle hay : List Char) : Option Nat :=
  let nl := lowerL needle
  let hl := lowerL hay
  let idxs := (List.range (hl.length + 1)).filter (fun i => startsWithL nl (hl.drop i))
  idxs.getLast?

/-- Embeds `_stripDatesFromEnd` from src/app/api/chat/route.ts. -/
def stripDatesFromEnd (line : String) : String × Option String :=
  match dateRangeREFirst line with
  | none => (cleanSpaces line, none)
  | some m0 =>
      match lastSubIdxCI m0 line.data with
      | none => (cleanSpaces line, none)
      | some idx =>
          (cleanSpaces ⟨line.data.take idx⟩, some (cleanSpaces ⟨line.data.drop idx⟩))

/-- Scan replacing `\s*\|\s*` with a canonical ` | `. -/
def normSepPipeAux : Nat → List Char → List Char
  | 0, l => l
  | _ + 1, [] => []
  | fuel + 1, c :: rest =>
      let l := c :: rest
      let ws1 := l.takeWhile isWs
      match l.drop ws1.length with
      | '|' :: r2 =>
          let ws2 := r2.takeWhile isWs
          ' ' :: '|' :: ' ' :: normSepPipeAux fuel (r2.drop ws2.length)
      | _ => c :: normSepPipeAux fuel rest

/-- Scan replacing `\s*(—|–)\s*` with a canonical ` - `. -/
def normSepDashAux : Nat → List Char → List Char
  | 0, l => l
  | _ + 1, [] => []
  | fuel + 1, c :: rest =>
      let l := c :: rest
      let ws1 := l.takeWhile isWs
      match l.drop ws1.length with
      | d :: r2 =>
          if d == '—' || d == '–' then
            let ws2 := r2.takeWhile isWs
            ' ' :: '-' :: ' ' :: normSepDashAux fuel (r2.drop ws2.length)
          else c :: normSepDashAux fuel rest
      | [] => c :: normSepDashAux fuel rest

/-- Embeds `_normalizeSeparators` from src/app/api/chat/route.ts. -/
def normalizeSeparatorsU (s : String) : String :=
  let l0 := s.data.map (fun c => if c == '•' || c == '·' then '|' else c)
  let l1 := normSepPipeAux (l0.length + 1) l0
  let l2 := normSepDashAux (l1.length + 1) l1
  cleanSpaces ⟨l2⟩

end CarrerMVP

namespace CarrerMVP

/-- Split on the regex `\s+@\s+` (JS `split`). -/
def splitWsAtWsAux : Nat → List Char → List Char → List (List Char)
  | 0, acc, l => [acc.reverse ++ l]
  | fuel + 1, acc, l =>
      match l with
      | [] => [acc.reverse]
      | c :: rest =>
          let ws1 := l.takeWhile isWs
          if ws1.isEmpty then splitWsAtWsAux fuel (c :: acc) rest
          else
            match l.drop ws1.length with
            | '@' :: r2 =>
                let ws2 := r2.takeWhile isWs
                if ws2.isEmpty then splitWsAtWsAux fuel (c :: acc) rest
                else acc.reverse :: splitWsAtWsAux fuel [] (r2.drop ws2.length)
            | _ => splitWsAtWsAux fuel (c :: acc) rest

/-- Split a string on `\s+@\s+`. -/
def splitWsAtWs (s : String) : List String :=
  (splitWsAtWsAux (s.data.length + 1) [] s.data).map (fun l => (⟨l⟩ : String))

/-- The `ParsedRoleHeader` record of the one-line header parser
(`confidence` is the source's float, represented exactly as a rational). -/
structure ParsedRoleHeader where
  title : String
  company : String
  location : String
  dates : Option String
  confidence : Rat
deriving Repr

/-- Embeds `parseOneLineRoleHeader` from src/app/api/chat/route.ts. -/
def parseOneLineRoleHeader (lineRaw : String) : Option ParsedRoleHeader :=
  let line := normalizeSeparatorsU lineRaw
  if line = "" then none
  else
    let hd := stripDatesFromEnd line
    let headParts := ((splitOnStr " | " hd.1).map cleanSpaces).filter (· ≠ "")
    let left := headParts.headD ""
    let dashSplit := ((splitOnStr " - " left).map cleanSpaces).filter (· ≠ "")
    let candidates : Option (String × String) :=
      if 2 ≤ dashSplit.length then
        some (dashSplit.headD "", String.intercalate " - " (dashSplit.drop 1))
      else
        let atSplit := ((splitWsAtWs left).map cleanSpaces).filter (· ≠ "")
        if 2 ≤ atSplit.length then
          some (atSplit.headD "", String.intercalate " @ " (atSplit.drop 1))
        else none
    match candidates with
    | none => none
    | some (candTitle, candRest) =>
        let companyLoc : String × String :=
          if includesStr candRest "," then
            let cs := (splitOnStr "," candRest).map cleanSpaces
            (cs.headD "", String.intercalate ", " (cs.drop 1))
          else (candRest, "")
        let company := companyLoc.1
        let location0 := companyLoc.2
        let scoreA := roleTitleScore candTitle
        let scoreB := roleTitleScore company
        let swapped := looksLikeLocationOrCompanyU candTitle && scoreA < scoreB
        let title := if swapped then company else candTitle
        let finalCompany := if swapped then candTitle else company
        let location := if swapped then "" else location0
        if looksLikeLocationOrCompanyU title then none
        else
          let conf : Rat := max 0 (min 1 ((1 : Rat) / 2 + (roleTitleScore title : Rat) / 10))
          some ⟨cleanSpaces title, cleanSpaces finalCompany, cleanSpaces location,
            hd.2.map cleanSpaces, conf⟩

/-- Embeds `tryParseTwoLineRoleHeader` from src/app/api/chat/route.ts. -/
def tryParseTwoLineRoleHeader (titleLineRaw metaLineRaw : String) : Option Role :=
  let title := cleanSpaces titleLineRaw
  let meta := normalizeSeparatorsU metaLineRaw
  if title = "" || meta = "" then none
  else if !includesStr meta "|" && !dateRangeRETest meta then none
  else
    let dates := match dateRangeREFirst meta with
      | some m0 => cleanSpaces ⟨m0⟩
      | none => ""
    if looksLikeLocationOrCompanyU title then none
    else some ⟨title, if dates = "" then "daty do uzupełnienia" else dates⟩

/-- Embeds the local `isSuspiciousTitle` of `extractRolesFromCvText`. -/
def isSuspiciousTitle (title : String) : Bool :=
  let s := cleanSpaces title
  if s = "" then true
  else if dateRangeRETest s then true
  else if hasRoleWord s then false
  else
    let hasComma := includesStr s ","
    if hasCompanySuffixOpt s then true
    else if hasComma && !hasRoleWord s then true
    else if hasLocationHint s && s.data.length ≤ 35 then true
    else if 60 < s.data.length then true
    else false

/-- Embeds the local `safeRole` of `extractRolesFromCvText`. -/
def safeRole (title dates : String) : Option Role :=
  let tt := cleanSpaces title
  if tt = "" then none
  else if isSuspiciousTitle tt then none
  else
    let dd := cleanSpaces dates
    some ⟨tt, if dd = "" then "daty do uzupełnienia" else dd⟩

/-- The per-block mapping step of `extractRolesFromCvText` (title repair
plus date extraction). -/
def roleFromBlock (b : ParsedRoleBlock) : Option Role :=
  let titleFromParsed := cleanSpaces b.title
  let titleFromSplit := cleanSpaces (splitTitleCompany (cleanSpaces b.titleLine)).1
  let titleLine := cleanSpaces b.titleLine
  let title0 :=
    if titleFromParsed ≠ "" then titleFromParsed
    else if titleFromSplit ≠ "" then titleFromSplit
    else titleLine
  let title :=
    if titleLine ≠ "" && isSuspiciousTitle title0 then
      match tryParseOneLineRoleHeader titleLine with
      | some r1 =>
          if r1.title ≠ "" && !isSuspiciousTitle r1.title then cleanSpaces r1.title
          else if titleFromSplit ≠ "" && !isSuspiciousTitle titleFromSplit then titleFromSplit
          else
            match tryParseTwoLineRoleHeader titleLine (cleanSpaces b.datesLine) with
            | some r2 =>
                if r2.title ≠ "" && !isSuspiciousTitle r2.title then cleanSpaces r2.title
                else title0
            | none => title0
      | none =>
          if titleFromSplit ≠ "" && !isSuspiciousTitle titleFromSplit then titleFromSplit
          else
            match tryParseTwoLineRoleHeader titleLine (cleanSpaces b.datesLine) with
            | some r2 =>
                if r2.title ≠ "" && !isSuspiciousTitle r2.title then cleanSpaces r2.title
                else title0
            | none => title0
    else title0
  if isSuspiciousTitle title then none
  else
    let dates0 :=
      if extractDatesFromLine b.datesLine ≠ "" then extractDatesFromLine b.datesLine
      else if extractDatesFromLine b.titleLine ≠ "" then extractDatesFromLine b.titleLine
      else cleanSpaces b.datesLine
    let dates :=
      if titleLine ≠ "" then
        match tryParseOneLineRoleHeader titleLine with
        | some p => if p.dates ≠ "" then cleanSpaces p.dates else dates0
        | none => dates0
      else dates0
    safeRole title dates

/-- Embeds `extractRolesFromCvText` from src/app/api/chat/route.ts. -/
def extractRolesFromCvText (cvText : String) : List Role :=
  let t := preprocessCvSource cvText
  if t = "" then []
  else
    let blocks := parseExperienceIntoRoleBlocks t
    let rolesFromBlocks := blocks.filterMap roleFromBlock
    let rolesFromOneLine := ((splitLinesL t.data).map (fun l => cleanSpaces ⟨l⟩)).filterMap
      (fun line =>
        if line = "" then none
        else
          match tryParseOneLineRoleHeader line with
          | some parsed =>
              let title := cleanSpaces parsed.title
              if title = "" || isSuspiciousTitle title then none
              else
                let dates := let d := cleanSpaces parsed.dates
                  if d = "" then "daty do uzupełnienia" else d
                safeRole title dates
          | none => none)
    let merged := (dedupeRoles (rolesFromBlocks ++ rolesFromOneLine)).filter
      (fun r => r.title ≠ "" && !isSuspiciousTitle r.title)
    merged.take 8

end CarrerMVP

namespace CarrerMVP

/-- States after consuming 0, 1, 2, … groups of `(?:[ .,_]\d{3})`
(consumed text, rest), in increasing group count. -/
def sepGroupStates : Nat → List Char → List Char → List (List Char × List Char)
  | 0, acc, r => [(acc, r)]
  | fuel + 1, acc, r =>
      match r with
      | s :: d1 :: d2 :: d3 :: rest =>
          if (s == ' ' || s == '.' || s == ',' || s == '_') && isDigitCh d1 &&
             isDigitCh d2 && isDigitCh d3 then
            (acc, s :: d1 :: d2 :: d3 :: rest) ::
              sepGroupStates fuel (acc ++ [s, d1, d2, d3]) rest
          else [(acc, r)]
      | _ => [(acc, r)]

/-- Optional decimal part `(?:[.,]\d+)?` in greedy backtracking order
(longest digit run first, absence last). -/
def decimalCands (r : List Char) : List (List Char × List Char) :=
  (match r with
   | s :: rest =>
       if s == '.' || s == ',' then
         let run := rest.takeWhile isDigitCh
         ((List.range run.length).reverse.map (· + 1)).map (fun len =>
           (s :: run.take len, rest.drop len))
       else []
   | [] => []) ++ [([], r)]

/-- First alternative `\d{1,3}(?:[ .,_]\d{3})*(?:[.,]\d+)?` of the
number regex, all backtracking configurations in engine order. -/
def altACands (l : List Char) : List (List Char × List Char) :=
  ([3, 2, 1].filterMap (fun d =>
     let ds := l.take d
     if ds.length = d && ds.all isDigitCh then some (ds, l.drop d) else none)).flatMap
    (fun dr =>
      ((sepGroupStates (dr.2.length + 1) [] dr.2).reverse).flatMap (fun gr =>
        (decimalCands gr.2).map (fun dc => (dr.1 ++ gr.1 ++ dc.1, dc.2))))

/-- Second alternative `\d+` in greedy backtracking order. -/
def altBCands (l : List Char) : List (List Char × List Char) :=
  let run := l.takeWhile isDigitCh
  ((List.range run.length).reverse.map (· + 1)).map (fun len => (run.take len, l.drop len))

/-- Global scan of the `extractNumbersLoose` regex
`(?<!\w)(\d{1,3}(?:[ .,_]\d{3})*(?:[.,]\d+)?|\d+)(?!\w)`. -/
def extractNumbersLooseAux : Nat → Option Char → List Char → List (List Char)
  | 0, _, _ => []
  | _ + 1, _, [] => []
  | fuel + 1, prev, c :: rest =>
      let behindOk := match prev with | some p => !isWordChar p | none => true
      if behindOk then
        match (altACands (c :: rest) ++ altBCands (c :: rest)).find? (fun p =>
          match p.2.head? with | some d => !isWordChar d | none => true) with
        | some (m, r) => m :: extractNumbersLooseAux fuel m.getLast? r
        | none => extractNumbersLooseAux fuel (some c) rest
      else extractNumbersLooseAux fuel (some c) rest

/-- Embeds `extractNumbersLoose` from src/app/api/chat/route.ts. -/
def extractNumbersLoose (s : String) : List String :=
  let t := normalizeNewlines s
  (extractNumbersLooseAux (t.data.length + 1) none t.data).map
    (fun m => ⟨m.filter (fun c => c ≠ ' ' && c ≠ '_')⟩)

/-- Comma→dot normalisation of a token. -/
def tokCommaToDot (s : String) : String :=
  ⟨s.data.map (fun c => if c == ',' then '.' else c)⟩

/-- Dot→comma normalisation of a token. -/
def tokDotToComma (s : String) : String :=
  ⟨s.data.map (fun c => if c == '.' then ',' else c)⟩

/-- Embeds `expandNumberVariants` from src/app/api/chat/route.ts (the
JS `Set` is represented by a list used only for membership). -/
def expandNumberVariants (tokens : List String) : List String :=
  tokens.flatMap (fun tok => [tok, tokCommaToDot tok, tokDotToComma tok])

/-- Embeds `hasUnverifiedNumbers` from src/app/api/chat/route.ts: true
when the rewrite contains a numeral token that is absent from the
allowed-fact text in every separator-normalised form. -/
def hasUnverifiedNumbers (rewriteText allowedFacts : String) : Bool :=
  let allowed := expandNumberVariants (extractNumbersLoose allowedFacts)
  let gotRaw := extractNumbersLoose rewriteText
  let suspicious := gotRaw.filter (fun n =>
    !allowed.contains n && !allowed.contains (tokCommaToDot n) &&
    !allowed.contains (tokDotToComma n))
  !suspicious.isEmpty

/-- Embeds `hasBannedCausalPhrases` from src/app/api/chat/route.ts. -/
def hasBannedCausalPhrases (text : String) : Bool :=
  let t : String := ⟨lowerL (normalizeNewlines text).data⟩
  ["co przyczyni", "co skutkow", "co pozwoliło", "co pozwolilo",
   "co umożliwiło", "co umozliwilo", "dzięki czemu", "w efekcie",
   "co przynios", "przełożyło się", "przelozylo sie", "przekładając się",
   "przekladajac sie"].any (fun p => includesStr t p)

/-- List-suffix test. -/
def endsWithL (needle l : List Char) : Bool := startsWithL needle.reverse l.reverse

/-- Embeds `stripFencedCodeBlock` from src/app/api/chat/route.ts. -/
def stripFencedCodeBlock (text : String) : String :=
  let t := jsTrim (normalizeNewlines text)
  let l := t.data
  if startsWithL "```".data l then
    let r0 := l.drop 3
    let wl := r0.takeWhile isWordChar
    match r0.drop wl.length with
    | '\n' :: body =>
        if 4 ≤ body.length && endsWithL ['\n', '`', '`', '`'] body then
          jsTrim ⟨body.take (body.length - 4)⟩
        else t
    | _ => t
  else t

/-- Embeds `userNonAnswer` from src/app/api/chat/route.ts. -/
def userNonAnswer (text : String) : Bool :=
  let raw := jsTrim text
  let t := jsTrim ⟨collapseWs (lowerL raw.data)⟩
  if t = "" then true
  else if t.data.all (fun c => c == '.' || c == '-' || c == '—' || c == '–' ||
          c == '_' || c == '?' || c == '!' || c == ',' || c == ';' || c == ':') then true
  else if t = "…" then true
  else if t.data.all (· == '.') then true
  else if t.data.length ≤ 2 then true
  else if t.data.length ≤ 3 && t.data.all (fun c => 97 ≤ c.toNat && c.toNat ≤ 122) then true
  else if ["nie pamiętam", "nie pamietam", "nie wiem", "nie mam", "nie mam danych",
           "brak", "brak danych", "n/a", "na", "-", "—", "?", "???", "..."].contains t then true
  else if ["to nie moja działka", "nie moja działka", "nie dotyczy",
           "nie zajmowałem", "nie zajmowalem", "nie było", "nie bylo",
           "nie sprzedawałem", "nie sprzedawalem", "nie pozyskiwałem",
           "nie pozyskiwalem", "nie było takiego procesu",
           "nie bylo takiego procesu"].any (fun p => includesStr t p) then true
  else false

/-- Embeds `userCannotShare` from src/app/api/chat/route.ts. -/
def userCannotShare (text : String) : Bool :=
  let t : String := ⟨lowerL text.data⟩
  ["nie mogę", "nie moge", "nie mogę podać", "nie moge podac", "poufne",
   "confidential", "nie mogę dzielić", "nie moge dzielic"].any
    (fun p => includesStr t p)

end CarrerMVP

namespace CarrerMVP

/-- Line-killing pass `^\s*-?\s*WORD.*$` (gim) of `stripCvMetaAndFiller`,
replaced with the empty string. -/
def killMetaLineAux (word : List Char) : Nat → Bool → List Char → List Char
  | 0, _, l => l
  | _ + 1, _, [] => []
  | fuel + 1, atStart, c :: rest =>
      if atStart then
        let l := c :: rest
        let r1 := l.dropWhile isWs
        let afterDash := match r1 with
          | '-' :: r => r.dropWhile isWs
          | _ => r1
        match matchWordCI word afterDash with
        | some (_, r3) =>
            killMetaLineAux word fuel false (r3.dropWhile (fun d => d ≠ '\n'))
        | none => c :: killMetaLineAux word fuel (c == '\n') rest
      else c :: killMetaLineAux word fuel (c == '\n') rest

/-- Phrase replacement `PHRASE[opt]?` → empty (ci, global). -/
def killPhraseOptAux (phrase : List Char) (opt : Char) : Nat → List Char → List Char
  | 0, l => l
  | _ + 1, [] => []
  | fuel + 1, c :: rest =>
      match matchWordCI phrase (c :: rest) with
      | some (_, r) =>
          let r2 := match r with
            | o :: rr => if o == opt then rr else r
            | [] => r
          killPhraseOptAux phrase opt fuel r2
      | none => c :: killPhraseOptAux phrase opt fuel rest

/-- Phrase replacement `skala\s*:\s*` → empty (ci, global). -/
def killSkalaAux : Nat → List Char → List Char
  | 0, l => l
  | _ + 1, [] => []
  | fuel + 1, c :: rest =>
      match matchWordCI "skala".data (c :: rest) with
      | some (_, r) =>
          match r.dropWhile isWs with
          | ':' :: r2 => killSkalaAux fuel (r2.dropWhile isWs)
          | _ => c :: killSkalaAux fuel rest
      | none => c :: killSkalaAux fuel rest

/-- Embeds `stripCvMetaAndFiller` from src/app/api/chat/route.ts. -/
def stripCvMetaAndFiller (text : String) : String :=
  let t0 := (normalizeNewlines text).data
  let t1 := killMetaLineAux "doprecyzuj".data (t0.length + 1) true t0
  let t2 := killMetaLineAux "dodaj".data (t1.length + 1) true t1
  let t3 := killPhraseOptAux "zgodnie z opisem w before".data '.' (t2.length + 1) t2
  let t4 := killPhraseOptAux "z twoich danych".data ':' (t3.length + 1) t3
  let t5 := killPhraseOptAux "jeśli dotyczy".data '.' (t4.length + 1) t4
  let t6 := killSkalaAux (t5.length + 1) t5
  ⟨t6⟩

/-- Embeds the `stripListPrefix` helper (split a line into its optional
list-marker prefix and its core). -/
def stripListMarkerParts (line : List Char) : List Char × List Char :=
  let ws := line.takeWhile isWs
  let r := line.drop ws.length
  match r with
  | b :: rest =>
      if b == '-' || b == '–' || b == '—' || b == '*' || b == '•' then
        let ws2 := rest.takeWhile isWs
        if 1 ≤ ws2.length then (ws ++ b :: ws2, rest.drop ws2.length)
        else (ws, r)
      else (ws, r)
  | [] => (ws, [])

/-- Prefix test `^realizacja\s*:` (ci) plus the stripped remainder of
`^realizacja\s*:\s*`. -/
def realizacjaStripped (c : List Char) : Option (List Char) :=
  match matchWordCI "realizacja".data c with
  | some (_, r) =>
      match r.dropWhile isWs with
      | ':' :: r2 => some (r2.dropWhile isWs)
      | _ => none
  | none => none

/-- Embeds `cleanRewriteArtifacts` from src/app/api/chat/route.ts. -/
def cleanRewriteArtifacts (out : String) : String :=
  let lines := splitLinesL out.data
  let kept := lines.filterMap (fun line =>
    let pc := stripListMarkerParts line
    let c := jsTrimL pc.2
    let low := lowerL c
    if startsWithL "baseline/kontekst".data low ||
       startsWithL "result (z ".data low ||
       startsWithL "kontekst (z ".data low ||
       startsWithL "efekt (doprecyzowanie".data low ||
       startsWithL "punkt odniesienia".data low ||
       containsSub low "z ostatniej odpowiedzi usera".data then none
    else
      match realizacjaStripped c with
      | some after =>
          let a := jsTrimL after
          if a.isEmpty then none else some (pc.1 ++ a)
      | none => some line)
  ⟨joinLinesL kept⟩

/-- Match `===\s*WORD\s*\((.*?)\)\s*===` (ci) at one position; returns
the rest after the match. -/
def matchHeaderPatAt (word : List Char) (l : List Char) : Option (List Char) :=
  if startsWithL "===".data l then
    let r1 := (l.drop 3).dropWhile isWs
    match matchWordCI word r1 with
    | some (_, r2) =>
        match r2.dropWhile isWs with
        | '(' :: r4 =>
            (List.range r4.length).findSome? (fun p =>
              if r4.get? p == some ')' && (r4.take p).all (· ≠ '\n') then
                let r5 := (r4.drop (p + 1)).dropWhile isWs
                if startsWithL "===".data r5 then some (r5.drop 3) else none
              else none)
        | _ => none
    | none => none
  else none

/-- First-match replacement used by `enforceRewriteRoleHeaders`. -/
def replaceHeaderAux (word repl : List Char) : Nat → List Char → List Char
  | 0, l => l
  | _ + 1, [] => []
  | fuel + 1, c :: rest =>
      match matchHeaderPatAt word (c :: rest) with
      | some r => repl ++ r
      | none => c :: replaceHeaderAux word repl fuel rest

/-- Embeds `enforceRewriteRoleHeaders` from src/app/api/chat/route.ts. -/
def enforceRewriteRoleHeaders (text roleTitle : String) : String :=
  let t := normalizeNewlines text
  if jsTrim roleTitle = "" then t
  else
    let l0 := t.data
    let l1 := replaceHeaderAux "before".data ("=== BEFORE (" ++ roleTitle ++ ") ===").data
      (l0.length + 1) l0
    let l2 := replaceHeaderAux "after".data ("=== AFTER (" ++ roleTitle ++ ") ===").data
      (l1.length + 1) l1
    ⟨l2⟩

/-- Canonicalisation `wersja\s*X\s*\(\s*NAME\s*\)\s*:` → canonical header
(ci, global). -/
def canonVersionHeaderAux (x : Char) (name repl : List Char) : Nat → List Char → List Char
  | 0, l => l
  | _ + 1, [] => []
  | fuel + 1, c :: rest =>
      let attempt : Option (List Char) :=
        match matchWordCI "wersja".data (c :: rest) with
        | some (_, r1) =>
            (match (r1.dropWhile isWs) with
             | y :: r2 =>
                 if toLowerCh y == x then
                   match r2.dropWhile isWs with
                   | '(' :: r3 =>
                       (match matchWordCI name (r3.dropWhile isWs) with
                        | some (_, r4) =>
                            (match r4.dropWhile isWs with
                             | ')' :: r5 =>
                                 (match r5.dropWhile isWs with
                                  | ':' :: r6 => some r6
                                  | _ => none)
                             | _ => none)
                        | none => none)
                   | _ => none
                 else none
             | [] => none)
        | none => none
      match attempt with
      | some r => repl ++ canonVersionHeaderAux x name repl fuel r
      | none => c :: canonVersionHeaderAux x name repl fuel rest

/-- Canonicalisation `wersja\s*X\s*:` → canonical header (ci, global). -/
def canonVersionShortAux (x : Char) (repl : List Char) : Nat → List Char → List Char
  | 0, l => l
  | _ + 1, [] => []
  | fuel + 1, c :: rest =>
      let attempt : Option (List Char) :=
        match matchWordCI "wersja".data (c :: rest) with
        | some (_, r1) =>
            (match r1.dropWhile isWs with
             | y :: r2 =>
                 if toLowerCh y == x then
                   match r2.dropWhile isWs with
                   | ':' :: r3 => some r3
                   | _ => none
                 else none
             | [] => none)
        | none => none
      match attempt with
      | some r => repl ++ canonVersionShortAux x repl fuel r
      | none => c :: canonVersionShortAux x repl fuel rest

/-- Replacement `([^\n])\s*(Wersja B \(mocniejsza\):)` → `$1\n\n$2`
(case-sensitive, global). -/
def newlineBeforeBAux (lit : List Char) : Nat → List Char → List Char
  | 0, l => l
  | _ + 1, [] => []
  | fuel + 1, c :: rest =>
      if c ≠ '\n' then
        let r1 := rest.dropWhile isWs
        if startsWithL lit r1 then
          c :: '\n' :: '\n' :: (lit ++ newlineBeforeBAux lit fuel (r1.drop lit.length))
        else c :: newlineBeforeBAux lit fuel rest
      else c :: newlineBeforeBAux lit fuel rest

/-- Replacement `(LIT)\s*(?!\n)` → `$1\n` (case-sensitive, global):
after each occurrence of the literal the following whitespace run is
replaced by a single newline. -/
def newlineAfterHeaderAux (lit : List Char) : Nat → List Char → List Char
  | 0, l => l
  | _ + 1, [] => []
  | fuel + 1, c :: rest =>
      if startsWithL lit (c :: rest) then
        let r := (c :: rest).drop lit.length
        lit ++ '\n' :: newlineAfterHeaderAux lit fuel (r.dropWhile isWs)
      else c :: newlineAfterHeaderAux lit fuel rest

/-- Embeds `fixRewriteVersionHeaderSpacing` from src/app/api/chat/route.ts. -/
def fixRewriteVersionHeaderSpacing (input : String) : String :=
  let litA := "Wersja A (bezpieczna):".data
  let litB := "Wersja B (mocniejsza):".data
  let t0 := input.data
  let t1 := canonVersionHeaderAux 'a' "bezpieczna".data litA (t0.length + 1) t0
  let t2 := canonVersionHeaderAux 'b' "mocniejsza".data litB (t1.length + 1) t1
  let t3 := canonVersionShortAux 'a' litA (t2.length + 1) t2
  let t4 := canonVersionShortAux 'b' litB (t3.length + 1) t3
  let t5 := newlineBeforeBAux litB (t4.length + 1) t4
  let t6 := newlineAfterHeaderAux litA (t5.length + 1) t5
  let t7 := newlineAfterHeaderAux litB (t6.length + 1) t6
  ⟨t7⟩

end CarrerMVP

namespace CarrerMVP

/-- Prefix test (ci) on a character list. -/
def startsWithCI (needle : String) (l : List Char) : Bool :=
  startsWithL needle.data (lowerL l)

/-- Test `/^===\s*(BEFORE|AFTER)/i`. -/
def isBeforeAfterHdr (tt : List Char) : Bool :=
  startsWithL "===".data tt &&
    (let r := (tt.drop 3).dropWhile isWs
     startsWithCI "before" r || startsWithCI "after" r)

/-- The `pushOrAppend` helper of `repairRewriteBullets`; `outRev` is the
output so far in reverse order. -/
def pushOrAppend (outRev : List (List Char)) (mode : Nat) (line : List Char) :
    List (List Char) :=
  let t := jsTrimL line
  if t.isEmpty then outRev
  else
    let last := outRev.headD []
    let isB := startsWithL "- ".data t
    let lastIsB := startsWithL "- ".data (jsTrimL last)
    if isB then
      (jsTrimEndL ("- ".data ++ (t.dropWhile (· == '-')).dropWhile isWs)) :: outRev
    else if mode ≠ 0 && lastIsB then
      (jsTrimEndL (collapseWs (jsTrimEndL last ++ ' ' :: t))) :: outRev.drop 1
    else if mode ≠ 0 then (jsTrimEndL ("- ".data ++ t)) :: outRev
    else t :: outRev

/-- Main loop of `repairRewriteBullets`. -/
def repairBulletsAux : Nat → List (List Char) → Nat → List (List Char) → List (List Char)
  | 0, outRev, _, _ => outRev.reverse
  | _ + 1, outRev, _, [] => outRev.reverse
  | fuel + 1, outRev, mode, raw :: rest =>
      let t := jsTrimEndL raw
      let tt := jsTrimL t
      if startsWithCI "wersja a (bezpieczna):" tt then
        repairBulletsAux fuel ("Wersja A (bezpieczna):".data :: outRev) 1 rest
      else if startsWithCI "wersja b (mocniejsza):" tt then
        repairBulletsAux fuel ("Wersja B (mocniejsza):".data :: outRev) 2 rest
      else if isBeforeAfterHdr tt then
        repairBulletsAux fuel (tt :: outRev) 0 rest
      else if startsWithCI "chcesz poprawić kolejną rolę?" tt then
        repairBulletsAux fuel ("Chcesz poprawić kolejną rolę?".data :: outRev) 0 rest
      else if mode = 1 || mode = 2 then
        repairBulletsAux fuel (pushOrAppend outRev mode t) mode rest
      else repairBulletsAux fuel (t :: outRev) mode rest

/-- Embeds `repairRewriteBullets` from src/app/api/chat/route.ts. -/
def repairRewriteBullets (text : String) : String :=
  let lines := splitLinesL (normalizeNewlines text).data
  ⟨joinLinesL (repairBulletsAux (lines.length + 1) [] 0 lines)⟩

/-- Test `/^wersja\s*a\b/i` (resp. `b`). -/
def isVersionShort (x : Char) (s : List Char) : Bool :=
  match matchWordCI "wersja".data s with
  | some (_, r1) =>
      (match r1.dropWhile isWs with
       | y :: r2 => toLowerCh y == x && boundaryBetween (some y) r2.head?
       | [] => false)
  | none => false

/-- Main loop of `enforceDashBulletsStrict` (flags: inAfter, inA, inB). -/
def dashStrictAux : Nat → Bool → Bool → Bool → List (List Char) → List (List Char)
  | 0, _, _, _, ls => ls
  | _ + 1, _, _, _, [] => []
  | fuel + 1, inAfter, inA, inB, raw :: rest =>
      let s := jsTrimL raw
      if startsWithL "=== BEFORE".data s then
        s :: dashStrictAux fuel false false false rest
      else if startsWithL "=== AFTER".data s then
        s :: dashStrictAux fuel true false false rest
      else if !inAfter then
        jsTrimEndL raw :: dashStrictAux fuel inAfter inA inB rest
      else if isVersionShort 'a' s then
        "Wersja A (bezpieczna):".data :: dashStrictAux fuel inAfter true false rest
      else if isVersionShort 'b' s then
        "Wersja B (mocniejsza):".data :: dashStrictAux fuel inAfter false true rest
      else if s.isEmpty then
        [] :: dashStrictAux fuel inAfter inA inB rest
      else if startsWithCI "chcesz poprawić kolejną rolę" s then
        "Chcesz poprawić kolejną rolę?".data :: dashStrictAux fuel inAfter false false rest
      else if inA || inB then
        let bulletish := match s with
          | b :: r =>
              if b == '-' || b == '–' || b == '—' || b == '•' || b == '*' then
                r.dropWhile isWs
              else s
          | [] => s
        ("- ".data ++ bulletish) :: dashStrictAux fuel inAfter inA inB rest
      else jsTrimEndL raw :: dashStrictAux fuel inAfter inA inB rest

/-- Embeds `enforceDashBulletsStrict` from src/app/api/chat/route.ts. -/
def enforceDashBulletsStrict (input : String) : String :=
  let lines := splitLinesL input.data
  ⟨joinLinesL (dashStrictAux (lines.length + 1) false false false lines)⟩

/-- The `normBullet` helper of `dedupeBulletsInAB`. -/
def normBullet (s : List Char) : List Char :=
  let s1 := let ws := s.takeWhile isWs
            match s.drop ws.length with
            | '-' :: r => r.dropWhile isWs
            | _ => s
  lowerL (collapseWs (jsTrimL s1))

/-- Main loop of `dedupeBulletsInAB` (mode 0/1/2, per-section seen keys). -/
def dedupeBulletsAux : Nat → Nat → List (List Char) → List (List Char) →
    List (List Char) → List (List Char)
  | 0, _, _, _, ls => ls
  | _ + 1, _, _, _, [] => []
  | fuel + 1, mode, seenA, seenB, raw :: rest =>
      let t := jsTrimEndL raw
      let tt := jsTrimL t
      if startsWithCI "wersja a (bezpieczna):" tt then
        "Wersja A (bezpieczna):".data :: dedupeBulletsAux fuel 1 seenA seenB rest
      else if startsWithCI "wersja b (mocniejsza):" tt then
        "Wersja B (mocniejsza):".data :: dedupeBulletsAux fuel 2 seenA seenB rest
      else if isBeforeAfterHdr tt then
        tt :: dedupeBulletsAux fuel 0 seenA seenB rest
      else if startsWithCI "chcesz poprawić kolejną rolę?" tt then
        "Chcesz poprawić kolejną rolę?".data :: dedupeBulletsAux fuel 0 seenA seenB rest
      else if (mode = 1 || mode = 2) && startsWithL "- ".data tt then
        let k := normBullet tt
        if mode = 1 then
          if seenA.contains k then dedupeBulletsAux fuel mode seenA seenB rest
          else tt :: dedupeBulletsAux fuel mode (k :: seenA) seenB rest
        else
          if seenB.contains k then dedupeBulletsAux fuel mode seenA seenB rest
          else tt :: dedupeBulletsAux fuel mode seenA (k :: seenB) rest
      else t :: dedupeBulletsAux fuel mode seenA seenB rest

/-- Embeds `dedupeBulletsInAB` from src/app/api/chat/route.ts. -/
def dedupeBulletsInAB (text : String) : String :=
  let lines := splitLinesL (normalizeNewlines text).data
  ⟨joinLinesL (dedupeBulletsAux (lines.length + 1) 0 [] [] lines)⟩

/-- Match `=== BEFORE \([^)]+\) ===` at a position (case-sensitive). -/
def matchBeforeHeaderAt (l : List Char) : Option (List Char) :=
  let lit := "=== BEFORE (".data
  if startsWithL lit l then
    let r0 := l.drop lit.length
    let content := r0.takeWhile (· ≠ ')')
    if content.isEmpty then none
    else
      let r1 := r0.drop content.length
      if startsWithL ") ===".data r1 then some (r1.drop 5) else none
  else none

/-- Lookahead `\n=== AFTER \([^)]+\) ===` at a position. -/
def matchAfterLookaheadAt (l : List Char) : Bool :=
  let lit := "\n=== AFTER (".data
  if startsWithL lit l then
    let r0 := l.drop lit.length
    let content := r0.takeWhile (· ≠ ')')
    !content.isEmpty && startsWithL ") ===".data (r0.drop content.length)
  else false

/-- First-match replacement of the BEFORE section span. -/
def enforceDetBeforeAux (repl : List Char) : Nat → List Char → List Char
  | 0, l => l
  | _ + 1, [] => []
  | fuel + 1, c :: rest =>
      match matchBeforeHeaderAt (c :: rest) with
      | some afterHdr =>
          (match (List.range (afterHdr.length + 1)).find?
              (fun j => matchAfterLookaheadAt (afterHdr.drop j)) with
           | some j => repl ++ afterHdr.drop j
           | none => c :: enforceDetBeforeAux repl fuel rest)
      | none => c :: enforceDetBeforeAux repl fuel rest

/-- Embeds `enforceDeterministicBeforeSection` from src/app/api/chat/route.ts. -/
def enforceDeterministicBeforeSection (txt roleTitle roleBlockText : String) : String :=
  let beforeBody := jsTrim (stripLeadingIndentAllLines (preprocessCvSource roleBlockText))
  let clipped := joinLinesL (((splitLinesL beforeBody.data).filter (fun l => !l.isEmpty)).take 12)
  let before := ("=== BEFORE (" ++ roleTitle ++ ") ===\n").data ++ clipped ++ ['\n']
  ⟨enforceDetBeforeAux before (txt.data.length + 1) txt.data⟩

/-- Line-removal pass `^[ \t]*-?[ \t]*Chcesz poprawić kolejną rolę\?\s*$`
(gim) of `ensureRewriteCta`. -/
def removeCtaLinesAux (lit : List Char) : Nat → Bool → List Char → List Char
  | 0, _, l => l
  | _ + 1, _, [] => []
  | fuel + 1, atStart, c :: rest =>
      if atStart then
        let l := c :: rest
        let sp1 := l.dropWhile (fun d => d == ' ' || d == '\t')
        let r2 := match sp1 with
          | '-' :: r => r.dropWhile (fun d => d == ' ' || d == '\t')
          | _ => sp1
        match matchWordCI lit r2 with
        | some (_, r4) =>
            let run := r4.takeWhile isWs
            let ks := (List.range (run.length + 1)).filter (fun k =>
              (k = run.length && (r4.drop k).isEmpty) || r4.get? k == some '\n')
            (match ks.getLast? with
             | some k => removeCtaLinesAux lit fuel false (r4.drop k)
             | none => c :: removeCtaLinesAux lit fuel (c == '\n') rest)
        | none => c :: removeCtaLinesAux lit fuel (c == '\n') rest
      else c :: removeCtaLinesAux lit fuel (c == '\n') rest

/-- Embeds `ensureRewriteCta` from src/app/api/chat/route.ts. -/
def ensureRewriteCta (txt : String) : String :=
  let cta := "Chcesz poprawić kolejną rolę?"
  let t0 := (normalizeNewlines txt).data
  let t1 := removeCtaLinesAux (lowerL cta.data) (t0.length + 1) true t0
  let t2 := jsTrimEndL (collapseNLRunsAux 2 (t1.length + 1) t1)
  let t3 := t2 ++ ('\n' :: '\n' :: cta.data)
  ⟨jsTrimEndL (collapseNLRunsAux 2 (t3.length + 1) t3)⟩

end CarrerMVP

namespace CarrerMVP

/-- First case-insensitive index of a substring. -/
def findSubIdxCI (needle hay : List Char) : Option Nat :=
  findSubIdx (lowerL needle) (lowerL hay)

/-- Count of global multiline matches of `^\s*-\s+` (the bullet counter
of `rewriteLooksValid`). -/
def countBulletMatchesAux : Nat → Bool → List Char → Nat
  | 0, _, _ => 0
  | _ + 1, _, [] => 0
  | fuel + 1, atStart, c :: rest =>
      if atStart then
        let l := c :: rest
        match l.dropWhile isWs with
        | '-' :: r2 =>
            let ws2 := r2.takeWhile isWs
            if 1 ≤ ws2.length then 1 + countBulletMatchesAux fuel false (r2.drop ws2.length)
            else countBulletMatchesAux fuel (c == '\n') rest
        | _ => countBulletMatchesAux fuel (c == '\n') rest
      else countBulletMatchesAux fuel (c == '\n') rest

/-- Bullet count `(section.match(/^\s*-\s+/gm) || []).length`. -/
def countBullets (l : List Char) : Nat := countBulletMatchesAux (l.length + 1) true l

/-- Section `Wersja A (bezpieczna): … (?=Wersja B (mocniejsza):)` of
`rewriteLooksValid` (empty when the regex does not match). -/
def sectionA (text : String) : List Char :=
  match findSubIdxCI "Wersja A (bezpieczna):".data text.data with
  | some iA =>
      let afterA := text.data.drop (iA + 22)
      (match findSubIdxCI "Wersja B (mocniejsza):".data afterA with
       | some j => text.data.drop iA |>.take (22 + j)
       | none => [])
  | none => []

/-- Section `Wersja B (mocniejsza): …` to the end of the text. -/
def sectionB (text : String) : List Char :=
  match findSubIdxCI "Wersja B (mocniejsza):".data text.data with
  | some iB => text.data.drop iB
  | none => []

/-- Test `/===\s*WORD/i` anywhere in the text. -/
def hasTripleEqWord (word : String) (text : String) : Bool :=
  scanExists (fun _ l =>
    startsWithL "===".data l && startsWithCI word ((l.drop 3).dropWhile isWs))
    (text.data.length + 1) none text.data

/-- Embeds `rewriteLooksValid` from src/app/api/chat/route.ts. -/
def rewriteLooksValid (text : String) : Bool :=
  let hasBefore := hasTripleEqWord "before" text
  let hasAfter := hasTripleEqWord "after" text
  let hasA := (findSubIdxCI "Wersja A (bezpieczna):".data text.data).isSome
  let hasB := (findSubIdxCI "Wersja B (mocniejsza):".data text.data).isSome
  let bulletsA := countBullets (sectionA text)
  let bulletsB := countBullets (sectionB text)
  hasBefore && hasAfter && hasA && hasB && 3 ≤ bulletsA && 3 ≤ bulletsB

/-- The `norm` helper of `rewriteVersionsIdentical`. -/
def versionsNorm (s : List Char) : List Char :=
  let lines := (splitLinesL (normalizeNewlines ⟨s⟩).data).map (fun l =>
    let r := match l.dropWhile isWs with
      | '-' :: r2 => r2.dropWhile isWs
      | _ => l
    jsTrimL r)
  let joined := String.intercalate " | " ((lines.filter (fun l => !l.isEmpty)).map
    (fun l => (⟨l⟩ : String)))
  lowerL (jsTrimL (collapseWs joined.data))

/-- Embeds `rewriteVersionsIdentical` from src/app/api/chat/route.ts. -/
def rewriteVersionsIdentical (text : String) : Bool :=
  let a := match findSubIdxCI "Wersja A (bezpieczna):".data text.data with
    | some iA =>
        let afterA := text.data.drop (iA + 22)
        (match findSubIdxCI "Wersja B (mocniejsza):".data afterA with
         | some j => afterA.take j
         | none => [])
    | none => []
  let b := match findSubIdxCI "Wersja B (mocniejsza):".data text.data with
    | some iB =>
        let afterB := text.data.drop (iB + 22)
        (match findSubIdxCI "Chcesz poprawić".data afterB with
         | some j => afterB.take j
         | none => afterB)
    | none => []
  let na := versionsNorm a
  let nb := versionsNorm b
  !na.isEmpty && !nb.isEmpty && na == nb

/-- Capture of `/Wersja A[\s\S]*?\n([\s\S]*?)\nWersja B/i` for
`rewriteHasStrictDashBullets`. -/
def strictSectionA (t : String) : Option (List Char) :=
  let hl := lowerL t.data
  let n := hl.length
  (List.range n).findSome? (fun i =>
    if startsWithL "wersja a".data (hl.drop i) then
      let startG := i + 8
      (List.range (n - startG + 1)).findSome? (fun g =>
        if hl.get? (startG + g) == some '\n' then
          let capStart := startG + g + 1
          (List.range (n - capStart + 1)).findSome? (fun c =>
            if startsWithL "\nwersja b".data (hl.drop (capStart + c)) then
              some ((t.data.drop capStart).take c)
            else none)
        else none)
    else none)

/-- Capture of `/Wersja B[\s\S]*?\n([\s\S]*?)(\nChcesz poprawić|\s*$)/i`. -/
def strictSectionB (t : String) : Option (List Char) :=
  let hl := lowerL t.data
  let n := hl.length
  (List.range n).findSome? (fun i =>
    if startsWithL "wersja b".data (hl.drop i) then
      let startG := i + 8
      (List.range (n - startG + 1)).findSome? (fun g =>
        if hl.get? (startG + g) == some '\n' then
          let capStart := startG + g + 1
          (List.range (n - capStart + 1)).findSome? (fun c =>
            if startsWithL "\nchcesz poprawić".data (hl.drop (capStart + c)) ||
               (hl.drop (capStart + c)).all isWs then
              some ((t.data.drop capStart).take c)
            else none)
        else none)
    else none)

/-- Embeds `rewriteHasStrictDashBullets` from src/app/api/chat/route.ts. -/
def rewriteHasStrictDashBullets (txt : String) : Bool :=
  match strictSectionA txt, strictSectionB txt with
  | some a, some b =>
      let linesA := splitLinesL a
      let linesB := splitLinesL b
      let bulletsA := (linesA.filter (fun l => startsWithL "- ".data (jsTrimL l))).length
      let bulletsB := (linesB.filter (fun l => startsWithL "- ".data (jsTrimL l))).length
      let nonEmptyA := (linesA.map jsTrimL).filter (fun l => !l.isEmpty)
      let nonEmptyB := (linesB.map jsTrimL).filter (fun l => !l.isEmpty)
      let allA := nonEmptyA.all (startsWithL "- ".data)
      let allB := nonEmptyB.all (startsWithL "- ".data)
      3 ≤ bulletsA && bulletsA ≤ 8 && 3 ≤ bulletsB && bulletsB ≤ 8 && allA && allB
  | _, _ => false

end CarrerMVP

namespace CarrerMVP

/-- Label test `^WORD\s*:` (ci). -/
def hasLabelColon (w : String) (l : String) : Bool :=
  match matchWordCI w.data l.data with
  | some (_, r) =>
      (match r.dropWhile isWs with
       | ':' :: _ => true
       | _ => false)
  | none => false

/-- Candidates for `pr\s*\/\s*mies`. -/
def prSlashMiesCands (l : List Char) : List (List Char × List Char) :=
  seqCands (seqCands (seqCands (seqCands (litCI "pr" l) wsRunCand) (litCI "/"))
    wsRunCand) (litCI "mies")

/-- Word-bounded scale-vocabulary test of the fallback builder. -/
def fallbackScaleVocab (s : String) : Bool :=
  scanExists (fun prev l =>
    if boundaryBetween prev l.head? then
      (prSlashMiesCands l).any (fun p =>
        !p.1.isEmpty && boundaryBetween p.1.getLast? p.2.head?) ||
      (["ticket", "sprint", "wdroż", "deploy", "test case", "zgłoszen",
        "zgłoszeń", "bug"].map String.data).any (fun a =>
        match matchWordCI a l with
        | some (m, r) => boundaryBetween m.getLast? r.head?
        | none => false)
    else false) (s.data.length + 1) none s.data

/-- Word-bounded result-vocabulary test of the fallback builder. -/
def fallbackResultVocab (s : String) : Bool :=
  let alts := ["error rate", "mttr", "uptime", "defect leakage", "pass rate",
    "csat", "nps", "sla", "cac", "cpa", "roas", "ctr", "cr"].map String.data
  scanExists (matchAltsBound alts) (s.data.length + 1) none s.data

/-- The `isGarbage` dots test `^(\.\.\.|…)+$`. -/
def dotsOnlyRun : List Char → Bool
  | [] => true
  | '…' :: r => dotsOnlyRun r
  | '.' :: '.' :: '.' :: r => dotsOnlyRun r
  | _ => false

/-- The `isGarbage` helper of `buildDeterministicRewriteFallback`. -/
def fallbackIsGarbage (l : String) : Bool :=
  userNonAnswer l || (let t := (jsTrim l).data; !t.isEmpty && dotsOnlyRun t)

/-- The `headerLike` helper (`includes('|')` or a date-like token). -/
def fallbackHeaderLike (l : String) : Bool :=
  includesStr l "|" ||
  scanExists (fun prev r => !(twoSepFourBoundCand (fun s => s == '.') prev r).isEmpty)
    (l.data.length + 1) none l.data ||
  scanExists (fun prev r => !(fourDigitBoundCand prev r).isEmpty)
    (l.data.length + 1) none l.data

/-- The bullet-filling loop (`while length < 3`) of the fallback builder. -/
def fillBullets (cands : List String) (mark : String) : Nat → List String → List String
  | 0, bs => bs
  | fuel + 1, bs =>
      if bs.length < 3 && cands.length ≠ 0 then
        match (if bs.length = 0 then none else cands.get? (bs.length - 1)) with
        | some extra =>
            if extra ≠ "" then fillBullets cands mark fuel (bs ++ [mark ++ extra])
            else bs
        | none => bs
      else bs

/-- Embeds `buildDeterministicRewriteFallback` from src/app/api/chat/route.ts. -/
def buildDeterministicRewriteFallback (roleTitle roleBlockText userFactsText : String) :
    String :=
  let linesAll := ((splitLinesL (roleBlockText ++ "\n" ++ userFactsText).data).map
    (fun l => cleanSpaces ⟨l⟩)).filter (· ≠ "")
  let linesAllClean := linesAll.filter (fun l => !fallbackIsGarbage l)
  let contentLines := linesAllClean.filter (fun l => l ≠ roleTitle && !fallbackHeaderLike l)
  let scaleLine : Option String :=
    (linesAllClean.find? (fun l => hasLabelColon "skala" l)).orElse
      (fun _ => linesAllClean.find? fallbackScaleVocab)
  let resultLine : Option String :=
    (linesAllClean.find? (fun l => hasLabelColon "wynik" l || hasLabelColon "result" l)).orElse
      (fun _ => linesAllClean.find? fallbackResultVocab)
  let toolHints := ["Jira", "Git", "GitHub", "GitLab", "Bitbucket", "Confluence",
    "TestRail", "Zephyr", "Xray", "Docker", "Kubernetes"]
  let toolsFound := toolHints.filter (fun t =>
    linesAllClean.any (fun l => includesCI l t))
  let actionCandidates := contentLines.filter (fun l =>
    !hasLabelColon "skala" l && !(hasLabelColon "wynik" l || hasLabelColon "result" l))
  let actions := actionCandidates.take 4
  let aBullets0 := actions.map (fun a => "- " ++ a)
  let aBullets1 := match scaleLine with
    | some sl => if hasLabelColon "skala" sl then aBullets0 ++ ["- " ++ sl] else aBullets0
    | none => aBullets0
  let aBullets2 := match resultLine with
    | some rl =>
        if hasLabelColon "wynik" rl || hasLabelColon "result" rl || includesStr rl "%" ||
           rl.data.any isDigitCh then aBullets1 ++ ["- " ++ rl]
        else aBullets1
    | none => aBullets1
  let aBullets3 := if toolsFound.length ≠ 0 then
      aBullets2 ++ ["- Proces / narzędzia: " ++ String.intercalate ", " toolsFound]
    else aBullets2
  let aFinal := (fillBullets actionCandidates "- " 4 aBullets3).take 8
  let actionsRotated := if 1 < actions.length then actions.drop 1 ++ actions.take 1 else actions
  let bBullets0 := actionsRotated.map (fun a => "- Realizacja: " ++ a)
  let bBullets1 := match scaleLine with
    | some sl => if hasLabelColon "skala" sl then bBullets0 ++ ["- " ++ sl] else bBullets0
    | none => bBullets0
  let bBullets2 := match resultLine with
    | some rl =>
        if hasLabelColon "wynik" rl || hasLabelColon "result" rl || includesStr rl "%" ||
           rl.data.any isDigitCh then bBullets1 ++ ["- " ++ rl]
        else bBullets1
    | none => bBullets1
  let bBullets3 := if toolsFound.length ≠ 0 then
      bBullets2 ++ ["- Proces / narzędzia: " ++ String.intercalate ", " toolsFound]
    else bBullets2
  let bFinal := (fillBullets actionCandidates "- Realizacja: " 4 bBullets3).take 8
  let beforeLines0 := contentLines.take 12
  let beforeLines :=
    if beforeLines0.length < 4 && linesAllClean.length ≠ 0 then
      match contentLines.get? beforeLines0.length with
      | some extra => if extra ≠ "" then beforeLines0 ++ [extra] else beforeLines0
      | none => beforeLines0
    else beforeLines0
  String.intercalate "\n"
    (["=== BEFORE (" ++ roleTitle ++ ") ==="] ++ beforeLines.take 12 ++
     ["=== AFTER (" ++ roleTitle ++ ") ===", "Wersja A (bezpieczna):"] ++ aFinal ++
     ["Wersja B (mocniejsza):"] ++ bFinal ++ ["", "Chcesz poprawić kolejną rolę?"])

/-- Outcome of one `callOpenAI` invocation: the call either returns the
response body text or throws (abort timeout, network error, or a
non-success HTTP status converted to a thrown error). -/
inductive TransportResult
  | ok (text : String)
  | failure
deriving Repr, DecidableEq

/-- The JSON payload the POST handler sends back for the rewrite phase:
either a normal assistant message or an error response with a status
(the latter is produced only by the handler's outer catch). -/
inductive RewriteResponse
  | assistantText (s : String)
  | errorResponse (msg : String) (status : Nat)
deriving Repr, DecidableEq

/-- Is the response an error payload? -/
def RewriteResponse.isError : RewriteResponse → Bool
  | .assistantText _ => false
  | .errorResponse _ _ => true

/-- Line filter `^\s*(RESULT|BASELINE\/KONTEXT)\b` (ci) applied to the
trimmed line. -/
def isResultBaselineLeak (l : List Char) : Bool :=
  let t := jsTrimL l
  let r := t.dropWhile isWs
  (match matchWordCI "result".data r with
   | some (m, rr) => boundaryBetween m.getLast? rr.head?
   | none => false) ||
  (match matchWordCI "baseline/kontext".data r with
   | some (m, rr) => boundaryBetween m.getLast? rr.head?
   | none => false)

/-- Replacement `(^|\n)\s*-\s*Realizacja:\s*` → `$1- ` (case-sensitive,
global). -/
def stripRealizacjaBulletsAux : Nat → Bool → List Char → List Char
  | 0, _, l => l
  | _ + 1, _, [] => []
  | fuel + 1, atStart, c :: rest =>
      if atStart then
        let l := c :: rest
        let r1 := l.dropWhile isWs
        match r1 with
        | '-' :: r2 =>
            let r3 := r2.dropWhile isWs
            if startsWithL "Realizacja:".data r3 then
              '-' :: ' ' :: stripRealizacjaBulletsAux fuel false
                ((r3.drop 11).dropWhile isWs)
            else c :: stripRealizacjaBulletsAux fuel (c == '\n') rest
        | _ => c :: stripRealizacjaBulletsAux fuel (c == '\n') rest
      else c :: stripRealizacjaBulletsAux fuel (c == '\n') rest

/-- The candidate preprocessing the handler applies to the raw generator
output before the `if (out)` test (fence stripping, leak-line filter,
`- Realizacja:` prefix removal). -/
def preOut (llmOut : String) : String :=
  let out0 := jsTrim (stripFencedCodeBlock llmOut)
  let kept := (splitLinesL out0.data).filter (fun l => !isResultBaselineLeak l)
  let out1 := jsTrim ⟨joinLinesL kept⟩
  ⟨stripRealizacjaBulletsAux (out1.data.length + 1) true out1.data⟩

/-- The post-generation repair pipeline of the REWRITE branch, in source
order. -/
def processRewriteCandidate (out0 roleTitle roleBlockText : String) : String :=
  let o1 := stripCvMetaAndFiller out0
  let o2 := cleanRewriteArtifacts o1
  let o3 := enforceRewriteRoleHeaders o2 roleTitle
  let o4 := fixRewriteVersionHeaderSpacing o3
  let o5 := repairRewriteBullets o4
  let o6 := enforceDashBulletsStrict o5
  let o7 := dedupeBulletsInAB o6
  let o8 := enforceDeterministicBeforeSection o7 roleTitle roleBlockText
  let o9 := ensureRewriteCta o8
  normalizeForUI o9 1

/-- The structural-validity disjunction (`invalid`) of the REWRITE
branch. -/
def rewriteCandidateInvalid (out allowedFacts : String) : Bool :=
  !rewriteLooksValid out || rewriteVersionsIdentical out ||
  !rewriteHasStrictDashBullets out || hasUnverifiedNumbers out allowedFacts ||
  hasBannedCausalPhrases out

/-- Inputs of the REWRITE branch that are fixed before the generator is
called. -/
structure RewriteArgs where
  roleTitle : String
  roleBlockText : String
  userFactsTextForPrompt : String
deriving Repr

/-- The allowed-fact text used for the numeric-leak validation.  The
source declares `allowedFacts` twice (route.ts:3661 and :3664, the
second referring to an identifier `userFactsTextEffective` that is never
defined); this embeds the well-defined declaration at :3661: role block
plus the latch-including user-fact text. -/
def allowedFactsOf (a : RewriteArgs) : String :=
  preprocessCvSource (a.roleBlockText ++ "\n" ++ a.userFactsTextForPrompt)

/-- The deterministic fallback response text of the REWRITE branch. -/
def fallbackRewriteText (a : RewriteArgs) : String :=
  normalizeForUI (ensureRewriteCta (enforceDeterministicBeforeSection
    (buildDeterministicRewriteFallback a.roleTitle a.roleBlockText a.userFactsTextForPrompt)
    a.roleTitle a.roleBlockText)) 1

/-- The REWRITE branch of the POST handler (route.ts:3692-3751) given
the outcome of its single `callOpenAI` invocation: a thrown transport
error is caught and mapped to an empty output, an empty output skips the
repair pipeline, and an invalid candidate is replaced by the
deterministic fallback.  Every path returns an assistant message. -/
def rewritePhase (r : TransportResult) (a : RewriteArgs) : RewriteResponse :=
  let llmOut := match r with
    | .ok s => s
    | .failure => ""
  let out0 := preOut llmOut
  if out0 = "" then .assistantText (fallbackRewriteText a)
  else
    let out := processRewriteCandidate out0 a.roleTitle a.roleBlockText
    if rewriteCandidateInvalid out (allowedFactsOf a) then
      .assistantText (fallbackRewriteText a)
    else .assistantText out

/-- The REWRITE branch viewed against the stream of responses the
external generator would return on successive invocations: the handler
performs exactly one invocation (route.ts:3694 is the only call site and
sits in no loop), so only the head of the stream is consumed; the second
component is the number of generator invocations performed. -/
def rewriteFlow (resps : List TransportResult) (a : RewriteArgs) : RewriteResponse × Nat :=
  (rewritePhase (resps.headD .failure) a, 1)

/-- The candidate text that the validity checks inspect for a given
generator outcome. -/
def candidateOf (r : TransportResult) (a : RewriteArgs) : String :=
  processRewriteCandidate (preOut (match r with | .ok s => s | .failure => "")) a.roleTitle
    a.roleBlockText

end CarrerMVP

namespace CarrerMVP

/-- Fact kinds of the interview orchestrator. -/
inductive QuestionKind
  | ACTIONS
  | SCALE
  | PROCESS
  | RESULT
  | CONTEXT
deriving Repr, DecidableEq

/-- `InterviewFacts` from src/app/api/chat/route.ts. -/
structure InterviewFacts where
  hasActions : Bool
  hasScale : Bool
  hasProcess : Bool
  hasResult : Bool
  hasContext : Bool
  needsContext : Bool
deriving Repr, DecidableEq

/-- `InterviewState` from src/app/api/chat/route.ts (`askedCounts`,
`declinedCounts`, `askedTotal`). -/
structure InterviewState where
  askedCounts : QuestionKind → Nat
  declinedCounts : QuestionKind → Nat
  askedTotal : Nat

/-- `InterviewStep` / `NextInterviewStep` from src/app/api/chat/route.ts. -/
inductive InterviewStep
  | ask (question : String) (qk : QuestionKind)
  | rewrite
deriving Repr, DecidableEq

/-- Question constant `Q1`. -/
def Q1 : String := "Co konkretnie TY zrobiłeś w tej roli? Podaj 2–3 działania, bez \"my\"."

/-- Question constant `Q2`. -/
def Q2 : String :=
  "Jaka była skala? Podaj 1 liczbę albo widełki (np. liczba projektów/spraw, liczebność zespołu, budżet, wolumen)."

/-- Question constant `Q_PROCESS`. -/
def Q_PROCESS : String :=
  "Jeśli w tej roli był proces pozyskania (klientów/kandydatów/partnerów) — opisz 2–4 etapy od pierwszego kontaktu do finalizacji."

/-- The `declined` closure test of `decideNextInterviewStep`: one
decline or two askings closes a fact kind. -/
def declinedK (state : InterviewState) (k : QuestionKind) : Bool :=
  decide (1 ≤ state.declinedCounts k) || decide (2 ≤ state.askedCounts k)

/-- Embeds `decideNextInterviewStep` from src/app/api/chat/route.ts. -/
def decideNextInterviewStep (shouldAskProcess : Bool) (facts : InterviewFacts)
    (state : InterviewState) : InterviewStep :=
  if 6 ≤ state.askedTotal then .rewrite
  else if !facts.hasActions && !declinedK state .ACTIONS then .ask Q1 .ACTIONS
  else if !facts.hasScale && !declinedK state .SCALE then .ask Q2 .SCALE
  else if shouldAskProcess && !facts.hasProcess && !declinedK state .PROCESS then
    .ask Q_PROCESS .PROCESS
  else if !facts.hasResult then
    (if !declinedK state .RESULT then .ask "" .RESULT else .rewrite)
  else if !facts.hasContext && !declinedK state .CONTEXT then .ask "" .CONTEXT
  else .rewrite

/-- Modelled from the spec: the fixed priority order Actions → Scale →
Process (if domain-relevant) → Result → Context (if Result present but
Context missing). -/
def orchestratorPriority (shouldAskProcess : Bool) : List QuestionKind :=
  [.ACTIONS, .SCALE] ++ (if shouldAskProcess then [.PROCESS] else []) ++ [.RESULT, .CONTEXT]

/-- Modelled from the spec: whether a fact kind is still missing per the
FactSet (Context only qualifies when Result is present but Context
missing). -/
def factMissing (facts : InterviewFacts) : QuestionKind → Bool
  | .ACTIONS => !facts.hasActions
  | .SCALE => !facts.hasScale
  | .PROCESS => !facts.hasProcess
  | .RESULT => !facts.hasResult
  | .CONTEXT => facts.hasResult && !facts.hasContext

/-- Modelled from the spec: emit ASK for the first fact kind that is
missing and not closed; REWRITE when none qualifies or the per-role
question cap of 6 is reached. -/
def orchestratorSpecNext (shouldAskProcess : Bool) (facts : InterviewFacts)
    (state : InterviewState) : Option QuestionKind :=
  if 6 ≤ state.askedTotal then none
  else (orchestratorPriority shouldAskProcess).find? (fun k =>
    factMissing facts k && !declinedK state k)

/-- The fact kind of an interview step (`none` for REWRITE). -/
def stepKind : InterviewStep → Option QuestionKind
  | .ask _ k => some k
  | .rewrite => none

/-- Pattern `\bx\s*(?:→|->)\s*y\b` (on lower-cased text). -/
def xArrowYTest (s : String) : Bool :=
  scanExists (fun prev l =>
    if boundaryBetween prev l.head? then
      match l with
      | 'x' :: r1 =>
          let r2 := r1.dropWhile isWs
          (match r2 with
           | '→' :: r3 => matchYAfter (r3.dropWhile isWs)
           | '-' :: '>' :: r3 => matchYAfter (r3.dropWhile isWs)
           | _ => false)
      | _ => false
    else false) (s.data.length + 1) none s.data
where
  matchYAfter : List Char → Bool
    | 'y' :: r => boundaryBetween (some 'y') r.head?
    | _ => false

/-- Embeds `looksLikeContextQuestion` from src/app/api/chat/route.ts. -/
def looksLikeContextQuestion (text : String) : Bool :=
  let s : String := ⟨lowerL text.data⟩
  let hasAskVerb := includesStr s "podaj" || includesStr s "jaki był" ||
    includesStr s "jaki byl" || includesStr s "?"
  if !hasAskVerb then false
  else
    includesStr s "punkt odniesienia" || includesStr s "podaj baseline" ||
    includesStr s "podaj kontekst" || includesStr s "podaj baseline/zmian" ||
    includesStr s "baseline/zmian" || xArrowYTest s ||
    includesStr s "vs poprzedni" || includesStr s "m/m"

/-- Pattern `\bjaki\s+by[lł]\s+(ALTS)\b`. -/
def jakiBylAltTest (alts : List String) (s : String) : Bool :=
  scanExists (fun prev l =>
    if boundaryBetween prev l.head? then
      match matchWordCI "jaki".data l with
      | some (_, r1) =>
          let ws1 := r1.takeWhile isWs
          if ws1.isEmpty then false
          else
            match matchWordCI "by".data (r1.drop ws1.length) with
            | some (_, r2) =>
                (match r2 with
                 | c :: r3 =>
                     if toLowerCh c == 'l' || toLowerCh c == 'ł' then
                       let ws2 := r3.takeWhile isWs
                       if ws2.isEmpty then false
                       else alts.any (fun w =>
                         match matchWordCI w.data (r3.drop ws2.length) with
                         | some (m, r4) => boundaryBetween m.getLast? r4.head?
                         | none => false)
                     else false
                 | [] => false)
            | none => false
      | none => false
    else false) (s.data.length + 1) none s.data

/-- Pattern `\bpodaj\s+(ALTS)\b`. -/
def podajAltTest (alts : List String) (s : String) : Bool :=
  scanExists (fun prev l =>
    if boundaryBetween prev l.head? then
      match matchWordCI "podaj".data l with
      | some (_, r1) =>
          let ws1 := r1.takeWhile isWs
          if ws1.isEmpty then false
          else alts.any (fun w =>
            match matchWordCI w.data (r1.drop ws1.length) with
            | some (m, r4) => boundaryBetween m.getLast? r4.head?
            | none => false)
      | none => false
    else false) (s.data.length + 1) none s.data

/-- Embeds `looksLikeResultQuestion` from src/app/api/chat/route.ts. -/
def looksLikeResultQuestion (text : String) : Bool :=
  let s : String := ⟨lowerL text.data⟩
  if looksLikeContextQuestion s then false
  else
    jakiBylAltTest ["efekt", "wynik"] s || podajAltTest ["efekt", "wynik", "rezultat"] s

/-- Embeds `looksLikeDeclineAnswer` from src/app/api/chat/route.ts. -/
def looksLikeDeclineAnswer (text : String) : Bool :=
  let s := jsTrim ⟨lowerL text.data⟩
  s = "?" || includesStr s "nie wiem" || includesStr s "brak danych" ||
  includesStr s "nie pamiętam" || includesStr s "nie mogę podać" ||
  includesStr s "nie moge podac" || includesStr s "nie podam"

/-- The `UNKNOWN` marker constant. -/
def UNKNOWN : String := "__UNKNOWN__"

/-- Embeds `normalizeAnswerForFacts` from src/app/api/chat/route.ts. -/
def normalizeAnswerForFacts (text : String) : String :=
  let s := jsTrim ⟨collapseWs text.data⟩
  if s = "" then ""
  else if ["brak danych", "brak", "nie wiem", "n/a"].contains (⟨lowerL s.data⟩ : String) then
    UNKNOWN
  else s

/-- Test `^\d{1,2}$`. -/
def isOneToTwoDigits (s : String) : Bool :=
  (s.data.length = 1 || s.data.length = 2) && s.data.all isDigitCh

end CarrerMVP

namespace CarrerMVP

/-- Pattern `\d+\s*(?:→|->)\s*\d+`. -/
def digitsArrowDigitsTest (s : String) : Bool :=
  scanExists (fun _ l =>
    match l with
    | c :: _ =>
        if isDigitCh c then
          let run := l.takeWhile isDigitCh
          let r1 := (l.drop run.length).dropWhile isWs
          (match r1 with
           | '→' :: r2 =>
               (match (r2.dropWhile isWs).head? with
                | some d => isDigitCh d
                | none => false)
           | '-' :: '>' :: r2 =>
               (match (r2.dropWhile isWs).head? with
                | some d => isDigitCh d
                | none => false)
           | _ => false)
        else false
    | [] => false) (s.data.length + 1) none s.data

/-- Pattern `z\s*\d+[^\n]{0,30}\s*do\s*\d+` (ci). -/
def zDoDigitsTest (s : String) : Bool :=
  scanExists (fun _ l =>
    match l with
    | c :: r0 =>
        if toLowerCh c == 'z' then
          let r1 := r0.dropWhile isWs
          let run := r1.takeWhile isDigitCh
          if run.isEmpty then false
          else
            let r2 := r1.drop run.length
            (List.range 31).any (fun g =>
              g ≤ r2.length && (r2.take g).all (· ≠ '\n') &&
              (let r3 := (r2.drop g).dropWhile isWs
               match matchWordCI "do".data r3 with
               | some (_, r4) =>
                   (match (r4.dropWhile isWs).head? with
                    | some d => isDigitCh d
                    | none => false)
               | none => false))
        else false
    | [] => false) (s.data.length + 1) none s.data

/-- Pattern `\d+\s*(?:%|proc\.?|procent)` (ci). -/
def digitsPercentTest (s : String) : Bool :=
  scanExists (fun _ l =>
    match l with
    | c :: _ =>
        if isDigitCh c then
          let run := l.takeWhile isDigitCh
          let r1 := (l.drop run.length).dropWhile isWs
          (match r1 with
           | '%' :: _ => true
           | _ => (matchWordCI "proc".data r1).isSome)
        else false
    | [] => false) (s.data.length + 1) none s.data

/-- Embeds `isValidBaselineAnswer` from src/app/api/chat/route.ts. -/
def isValidBaselineAnswer (ans : String) : Bool :=
  let s := jsTrim ans
  if s = "" then false
  else if isOneToTwoDigits s then false
  else
    let low : String := ⟨lowerL s.data⟩
    scanExists (matchAltsBound ["vs".data]) (low.data.length + 1) none low.data ||
    includesStr low "m/m" || includesStr low "q/q" || includesStr low "y/y" ||
    includesStr low "r/r" || includesStr low "rok do roku" ||
    includesStr low "baseline" || includesStr low "punkt odniesienia" ||
    digitsArrowDigitsTest s || zDoDigitsTest s || digitsPercentTest s

/-- The `latchedResultAnswer` computation of the AUDIT_ONLY entry path
(route.ts:3350-3359). -/
def latchedResultAnswerOf (lastAssistantClean lastUserClean : String) : String :=
  if !looksLikeResultQuestion lastAssistantClean then ""
  else
    let s := normalizeAnswerForFacts lastUserClean
    if s = "" then ""
    else if looksLikeDeclineAnswer s then UNKNOWN
    else if isOneToTwoDigits (jsTrim s) then ""
    else jsTrim s

/-- Test `^brak danych$` (ci) on a trimmed string. -/
def isBrakDanychExact (s : String) : Bool := (⟨lowerL s.data⟩ : String) = "brak danych"

/-- The AUDIT_ONLY anti-loop latch (route.ts:3337-3360 together with
3394-3412) applied to the facts derived from the role block: a RESULT
answer latches unless it is empty, a decline, a 1–2-digit menu pick or
`brak danych`; a CONTEXT answer latches only when it additionally passes
`isValidBaselineAnswer`. -/
def auditLatchFacts (factsFromRole : InterviewFacts) (lastAssistantRaw lastUserRaw : String) :
    InterviewFacts :=
  let lastUserClean := jsTrim (preprocessCvSource lastUserRaw)
  let lastAssistantClean := jsTrim lastAssistantRaw
  let lastAskedForContext := looksLikeContextQuestion lastAssistantClean
  let rawContextAnswer :=
    if lastAskedForContext && !looksLikeDeclineAnswer lastUserClean then
      normalizeAnswerForFacts lastUserClean
    else ""
  let latchedContextAnswer := if isValidBaselineAnswer rawContextAnswer then rawContextAnswer else ""
  let lastAskedForResult := looksLikeResultQuestion lastAssistantClean
  let latchedResultAnswer := latchedResultAnswerOf lastAssistantClean lastUserClean
  let f1 :=
    if lastAskedForResult && latchedResultAnswer ≠ "" && latchedResultAnswer ≠ UNKNOWN &&
       !isBrakDanychExact (jsTrim latchedResultAnswer) then
      { factsFromRole with hasResult := true }
    else factsFromRole
  if lastAskedForContext && latchedContextAnswer ≠ "" then
    { f1 with hasContext := true, needsContext := false }
  else f1

/-- Message role of a validated chat message. -/
inductive MsgRole
  | user
  | assistant
deriving Repr, DecidableEq

/-- A validated chat message. -/
structure Message where
  role : MsgRole
  content : String
deriving Repr, DecidableEq

/-- A raw incoming message before validation: the role is an arbitrary
string; the content carries the JS value through `coerceString` composed
with `?? ''` (a string stays itself, null/undefined become the empty
string, any other value its `String()` rendering). -/
structure RawMessage where
  role : String
  content : Option String
deriving Repr, DecidableEq

/-- The message sanitisation of `validateRequestBody` (drop unknown
roles, coerce contents to strings). -/
def sanitizeMessages (raw : List RawMessage) : List Message :=
  raw.filterMap (fun m =>
    if m.role = "user" then some ⟨.user, m.content.getD ""⟩
    else if m.role = "assistant" then some ⟨.assistant, m.content.getD ""⟩
    else none)

/-- The validated request body. -/
structure RequestBody where
  messages : List Message
  cvText : Option String
  selectedRoleTitle : Option String
deriving Repr, DecidableEq

/-- JS `Array.prototype.slice(-n)`: the final `n` elements. -/
def lastN (n : Nat) (l : List Message) : List Message := l.drop (l.length - n)

/-- Embeds `validateRequestBody` from src/app/api/chat/route.ts (the
JSON-shape checks preceding the message handling are outside this typed
model). -/
def validateRequestBody (rawMessages : List RawMessage)
    (cvText selectedRoleTitle : Option String) : Except (String × Nat) RequestBody :=
  let messages := sanitizeMessages rawMessages
  if messages.length = 0 then .error ("Messages must include at least 1 valid item", 400)
  else
    let userCount := (messages.filter (fun m =>
      (match m.role with | .user => true | .assistant => false) && jsTrim m.content ≠ "")).length
    if userCount = 0 then .error ("At least one user message is required", 400)
    else .ok ⟨lastN 120 messages, cvText, selectedRoleTitle⟩

end CarrerMVP

namespace CarrerMVP

/-- The key under which `dedupeRoles` collapses an entry (trimmed title,
dates defaulted exactly as in the source loop). -/
def roleEntryKey (r : Role) : String :=
  roleKey (jsTrim r.title)
    (if jsTrim r.dates = "" then "daty do uzupełnienia" else jsTrim r.dates)

/-- Concrete rewrite-branch inputs used by the claim witnesses. -/
def cexArgs : RewriteArgs := ⟨"R", "", ""⟩

/-- The end-to-end segmentation input of the spec's testable property. -/
def c9Input : String :=
  "Specjalista ds. Sprzedaży B2B - ABC Sp. z o.o., Warszawa | 03.2021 – obecnie\nPozyskiwanie klientów..."

/-- A non-declining Context answer that does not look like a baseline
statement. -/
def nonBaselineAnswerEx : String := "lepiej niż wcześniej było"

/-- The all-false fact set. -/
def emptyFacts : InterviewFacts := ⟨false, false, false, false, false, false⟩

/-- The all-zero interview state. -/
def zeroState : InterviewState := ⟨fun _ => 0, fun _ => 0, 0⟩

/-- An interview state in which SCALE has one recorded decline. -/
def scaleDeclinedState : InterviewState :=
  ⟨fun _ => 0, fun k => if k = .SCALE then 1 else 0, 1⟩

/-- A raw assistant message used by the validation examples. -/
def rawAsst : RawMessage := ⟨"assistant", some "ok"⟩

/-- A raw user message used by the validation examples. -/
def rawUser : RawMessage := ⟨"user", some "hej"⟩

/-- A transcript whose only user turn lies before the final 120
messages. -/
def oldUserTranscript : List RawMessage := rawUser :: List.replicate 120 rawAsst

/-- The same transcript without the out-of-window user turn. -/
def noUserTranscript : List RawMessage := List.replicate 120 rawAsst

/-- A one-message transcript for the window-equality witness. -/
def shortTranscript1 : List RawMessage := [rawUser]

/-- The same transcript with a dropped unknown-role message prepended. -/
def shortTranscript2 : List RawMessage := [⟨"system", some "junk"⟩, rawUser]

end CarrerMVP

namespace CarrerMVP

end CarrerMVP

namespace CarrerMVP

end CarrerMVP

namespace CarrerMVP

end CarrerMVP

namespace CarrerMVP

/-- Claim C7 (counterexample): the CV-text normalizer `preprocessCvSource`
is not idempotent.  On the hard-wrapped input "a b\nc d\ne f" one
application merges only the first continuation line, and a second
application merges a further one, so normalize(normalize(x)) differs from
normalize(x). -/
theorem preprocessCvSource_not_idempotent :
    preprocessCvSource (preprocessCvSource "a b\nc d\ne f") ≠
      preprocessCvSource "a b\nc d\ne f" := by decide

/-- Claim C7 (amended): the normalizer is a total function but not an
idempotent one: `unwrapHardWrap` joins at most one continuation line per
scan position, so a second pass can merge lines the first pass left
separate, as on the input "a b\nc d\ne f". -/
theorem preprocessCvSource_second_pass_merges :
    preprocessCvSource "a b\nc d\ne f" = "a b c d\ne f" ∧
    preprocessCvSource "a b c d\ne f" = "a b c d e f" :=
  ⟨by decide, by decide⟩

/-- Claim C9: on the input "Specjalista ds. Sprzedaży B2B - ABC Sp. z
o.o., Warszawa | 03.2021 – obecnie" followed by a body line, role
extraction yields exactly one role, with title "Specjalista ds.
Sprzedaży B2B" and normalized date range "03.2021 – obecnie". -/
theorem extractRoles_onelineHeader :
    extractRolesFromCvText c9Input =
      [⟨"Specjalista ds. Sprzedaży B2B", "03.2021 – obecnie"⟩] := by decide

/-- Claim C3 (counterexample): a transport failure of the generator call
does not produce a user-visible error message; the REWRITE branch
catches it and answers with the deterministic fallback rewrite. -/
theorem transportFailureNotSurfaced :
    rewritePhase .failure cexArgs = .assistantText (fallbackRewriteText cexArgs) ∧
    (rewritePhase .failure cexArgs).isError = false :=
  ⟨rfl, rfl⟩

/-- Claim C3 (amended): a transport failure of the external generative
call (timeout, network error or non-success status, all thrown by
`callOpenAI`) is caught inside the REWRITE branch and mapped to an empty
generator output; the call is not retried, and the empty output is
silently replaced by the deterministic fallback rewrite — no
user-visible error is produced. -/
theorem transportFailureSilentFallback (a : RewriteArgs) :
    rewritePhase .failure a = .assistantText (fallbackRewriteText a) ∧
    (rewriteFlow [.failure] a).2 = 1 :=
  ⟨rfl, rfl⟩

end CarrerMVP

namespace CarrerMVP

/-- An unverified numeral makes the validity disjunction fire. -/
theorem rewriteCandidateInvalid_of_unverified (out allowed : String)
    (h : hasUnverifiedNumbers out allowed = true) :
    rewriteCandidateInvalid out allowed = true := by
  unfold rewriteCandidateInvalid
  rw [h]
  simp

/-- An invalid processed candidate always yields the fallback answer. -/
theorem rewritePhase_fallback_of_invalid (r : TransportResult) (a : RewriteArgs)
    (h : rewriteCandidateInvalid (candidateOf r a) (allowedFactsOf a) = true) :
    rewritePhase r a = .assistantText (fallbackRewriteText a) := by
  cases r with
  | failure => rfl
  | ok s =>
      unfold candidateOf at h
      simp only at h
      unfold rewritePhase
      by_cases h0 : preOut s = ""
      · simp [h0]
      · simp [h0, h]

/-- The REWRITE branch never produces an error payload. -/
theorem rewritePhase_isError_false (r : TransportResult) (a : RewriteArgs) :
    (rewritePhase r a).isError = false := by
  cases r with
  | failure => rfl
  | ok s =>
      simp only [rewritePhase]
      split
      · rfl
      · split <;> rfl

/-- Claim C1: a candidate rewrite containing a numeral token that cannot
be found in the allowed-fact text in any separator-normalized form makes
`hasUnverifiedNumbers` fire; such a candidate is classified invalid by
the structural-validity disjunction, and the REWRITE branch then returns
the deterministic fallback rewrite instead of the candidate. -/
theorem unverifiedNumberForcesFallback :
    (∀ out allowed : String, hasUnverifiedNumbers out allowed = true →
        rewriteCandidateInvalid out allowed = true) ∧
    (∀ (r : TransportResult) (a : RewriteArgs),
        hasUnverifiedNumbers (candidateOf r a) (allowedFactsOf a) = true →
        rewritePhase r a = .assistantText (fallbackRewriteText a)) :=
  ⟨rewriteCandidateInvalid_of_unverified,
   fun r a h =>
     rewritePhase_fallback_of_invalid r a (rewriteCandidateInvalid_of_unverified _ _ h)⟩

/-- Claim C1 witness: the candidate "Zrobiłem 42 testy" against an empty
allowed-fact text leaks the numeral 42 and is replaced by the fallback. -/
theorem unverifiedNumberForcesFallback_witness :
    hasUnverifiedNumbers (candidateOf (.ok "Zrobiłem 42 testy") cexArgs)
        (allowedFactsOf cexArgs) = true ∧
    rewriteCandidateInvalid (candidateOf (.ok "Zrobiłem 42 testy") cexArgs)
        (allowedFactsOf cexArgs) = true ∧
    rewritePhase (.ok "Zrobiłem 42 testy") cexArgs =
      .assistantText (fallbackRewriteText cexArgs) :=
  ⟨by decide,
   unverifiedNumberForcesFallback.1 _ _ (by decide),
   unverifiedNumberForcesFallback.2 (.ok "Zrobiłem 42 testy") cexArgs (by decide)⟩

/-- Claim C2 (counterexample): an invalid generator response triggers no
repair re-invocation: even with a stream offering a second response, the
REWRITE flow performs exactly one generator invocation and answers with
the deterministic fallback at once. -/
theorem noRepairReinvocation :
    rewriteLooksValid (candidateOf (.ok "x") cexArgs) = false ∧
    rewriteFlow [.ok "x", .ok "poprawiona wersja"] cexArgs =
      (.assistantText (fallbackRewriteText cexArgs), 1) :=
  ⟨by decide, by decide⟩

/-- Claim C2 (amended): the REWRITE branch invokes the external
generator exactly once — there is no repair loop; when the single
response's processed candidate fails the structural validity check, the
deterministic template fallback is synthesized immediately; and every
path returns a well-formed assistant message, never a raw error. -/
theorem rewriteSingleShotFallback (resps : List TransportResult) (a : RewriteArgs) :
    (rewriteFlow resps a).2 = 1 ∧
    ((rewriteFlow resps a).1).isError = false ∧
    (rewriteCandidateInvalid (candidateOf (resps.headD .failure) a)
        (allowedFactsOf a) = true →
      (rewriteFlow resps a).1 = .assistantText (fallbackRewriteText a)) := by
  simp only [rewriteFlow]
  exact ⟨trivial, rewritePhase_isError_false _ _,
    fun h => rewritePhase_fallback_of_invalid _ _ h⟩

/-- Claim C2 witness: on the single invalid response "x" the flow counts
one invocation and answers with the fallback. -/
theorem rewriteSingleShotFallback_witness :
    rewriteCandidateInvalid (candidateOf (.ok "x") cexArgs)
        (allowedFactsOf cexArgs) = true ∧
    (rewriteFlow [.ok "x"] cexArgs).1 = .assistantText (fallbackRewriteText cexArgs) ∧
    (rewriteFlow [.ok "x"] cexArgs).2 = 1 :=
  ⟨by decide,
   (rewriteSingleShotFallback [.ok "x"] cexArgs).2.2 (by decide),
   (rewriteSingleShotFallback [.ok "x"] cexArgs).1⟩

end CarrerMVP

namespace CarrerMVP

set_option maxHeartbeats 1000000 in
/-- Claim C4: the orchestrator's next-step decision refines the spec's
walk: fixed priority Actions → Scale → Process (only when the domain
flags acquisition relevance) → Result → Context (only when Result is
present but Context missing), ASK for the first missing, not-closed
kind, and REWRITE when no kind qualifies or the per-role question total
has reached the hard cap of 6. -/
theorem orchestratorFollowsPriority (p : Bool) (f : InterviewFacts) (st : InterviewState) :
    stepKind (decideNextInterviewStep p f st) = orchestratorSpecNext p f st := by
  unfold decideNextInterviewStep orchestratorSpecNext orchestratorPriority
  cases p <;>
    split_ifs with h1 h2 h3 h4 h5 h6 h7 <;>
      simp_all [stepKind, factMissing, List.find?] <;>
        (cases hA : f.hasActions <;> cases hS : f.hasScale <;>
          cases hP : f.hasProcess <;> cases hC : f.hasContext <;> simp_all)

/-- Claim C4 witness: with no facts and a fresh state the first emitted
question targets ACTIONS. -/
theorem orchestratorFollowsPriority_witness :
    stepKind (decideNextInterviewStep false emptyFacts zeroState) =
      orchestratorSpecNext false emptyFacts zeroState ∧
    orchestratorSpecNext false emptyFacts zeroState = some .ACTIONS :=
  ⟨orchestratorFollowsPriority false emptyFacts zeroState, by decide⟩

/-- Claim C5: a fact kind with at least one recorded decline or at least
two askings is closed — the orchestrator never emits a question about it
again within the same role's interview. -/
theorem closedKindNeverAsked (p : Bool) (f : InterviewFacts) (st : InterviewState)
    (k : QuestionKind) (q : String)
    (h : 1 ≤ st.declinedCounts k ∨ 2 ≤ st.askedCounts k) :
    decideNextInterviewStep p f st ≠ .ask q k := by
  have hd : declinedK st k = true := by
    rcases h with h | h <;> simp [declinedK, h]
  intro hq
  unfold decideNextInterviewStep at hq
  split_ifs at hq with h1 h2 h3 h4 h5 h6 h7 <;>
    first
      | exact InterviewStep.noConfusion hq
      | (injection hq with hq1 hq2; subst hq2; simp_all)

/-- Claim C5 witness: after one decline of SCALE the orchestrator does
not ask the scale question again. -/
theorem closedKindNeverAsked_witness :
    (1 ≤ scaleDeclinedState.declinedCounts .SCALE ∨
      2 ≤ scaleDeclinedState.askedCounts .SCALE) ∧
    decideNextInterviewStep true emptyFacts scaleDeclinedState ≠ .ask Q2 .SCALE :=
  ⟨Or.inl (by decide),
   closedKindNeverAsked true emptyFacts scaleDeclinedState .SCALE Q2 (Or.inl (by decide))⟩

end CarrerMVP

namespace CarrerMVP

end CarrerMVP

namespace CarrerMVP

/-- Unfolding of the `dedupeRoles` loop on a cons, phrased with
`roleEntryKey`. -/
theorem dedupeRolesAux_cons (seen : List String) (r : Role) (rest : List Role) :
    dedupeRolesAux seen (r :: rest) =
      if jsTrim r.title = "" then dedupeRolesAux seen rest
      else if seen.contains (roleEntryKey r) then dedupeRolesAux seen rest
      else (⟨jsTrim r.title,
          if jsTrim r.dates = "" then "daty do uzupełnienia" else jsTrim r.dates⟩ : Role) ::
        dedupeRolesAux (roleEntryKey r :: seen) rest := rfl

/-- A role whose key is already in the seen set is dropped wherever it
sits in the remaining list. -/
theorem dedupeRolesAux_drop (r2 : Role) :
    ∀ (l1 : List Role) (seen : List String) (l2 : List Role),
      seen.contains (roleEntryKey r2) = true →
      dedupeRolesAux seen (l1 ++ r2 :: l2) = dedupeRolesAux seen (l1 ++ l2)
  | [], seen, l2, h => by
      rw [List.nil_append, List.nil_append, dedupeRolesAux_cons]
      split_ifs <;> rfl
  | r :: l1, seen, l2, h => by
      rw [List.cons_append, List.cons_append, dedupeRolesAux_cons, dedupeRolesAux_cons]
      split_ifs with h1 h2 h3 <;>
        first
          | exact dedupeRolesAux_drop r2 l1 seen l2 h
          | exact congrArg (List.cons _) (dedupeRolesAux_drop r2 l1 (roleEntryKey r :: seen) l2
              (by rw [List.contains_cons, h]; simp))

/-- Generalisation of the duplicate collapse over any seen set. -/
theorem dedupeRoles_collapses_aux (r1 r2 : Role) (hk : roleEntryKey r1 = roleEntryKey r2)
    (ht : jsTrim r1.title ≠ "") :
    ∀ (xs : List Role) (seen : List String) (ys zs : List Role),
      dedupeRolesAux seen (xs ++ r1 :: (ys ++ r2 :: zs)) =
        dedupeRolesAux seen (xs ++ r1 :: (ys ++ zs))
  | [], seen, ys, zs => by
      rw [List.nil_append, List.nil_append, dedupeRolesAux_cons, dedupeRolesAux_cons]
      split_ifs with h1 h2 h3 <;>
        first
          | exact absurd h1 ht
          | exact dedupeRolesAux_drop r2 ys seen zs (hk ▸ h2)
          | exact congrArg (List.cons _) (dedupeRolesAux_drop r2 ys (roleEntryKey r1 :: seen) zs
              (by rw [List.contains_cons, ← hk]; simp))
  | x :: xs, seen, ys, zs => by
      rw [List.cons_append, List.cons_append, dedupeRolesAux_cons, dedupeRolesAux_cons]
      split_ifs with h1 h2 h3 <;>
        first
          | exact dedupeRoles_collapses_aux r1 r2 hk ht xs seen ys zs
          | exact congrArg (List.cons _)
              (dedupeRoles_collapses_aux r1 r2 hk ht xs (roleEntryKey x :: seen) ys zs)

/-- Claim C8: deduplication collapses any two entries whose normalized
(diacritic-stripped, lowercase, alphanumeric-only) title+dateRange keys
coincide into a single entry, keeping the first occurrence in source
order, even when the entries differ elsewhere: removing the later
duplicate does not change the output. -/
theorem dedupeRoles_collapsesDuplicateKeys (xs ys zs : List Role) (r1 r2 : Role)
    (hk : roleEntryKey r1 = roleEntryKey r2) (ht : jsTrim r1.title ≠ "") :
    dedupeRoles (xs ++ r1 :: (ys ++ r2 :: zs)) = dedupeRoles (xs ++ r1 :: (ys ++ zs)) :=
  dedupeRoles_collapses_aux r1 r2 hk ht xs [] ys zs

/-- Claim C8 witness: two differently written variants of the same role
share one key and collapse to the first occurrence. -/
theorem dedupeRoles_collapsesDuplicateKeys_witness :
    roleEntryKey ⟨"Specjalista ds. Sprzedaży B2B", "03.2021 – obecnie"⟩ =
      roleEntryKey ⟨"SPECJALISTA DS. SPRZEDAZY B2B", "03.2021-obecnie"⟩ ∧
    dedupeRoles [⟨"Specjalista ds. Sprzedaży B2B", "03.2021 – obecnie"⟩,
        ⟨"SPECJALISTA DS. SPRZEDAZY B2B", "03.2021-obecnie"⟩] =
      dedupeRoles [⟨"Specjalista ds. Sprzedaży B2B", "03.2021 – obecnie"⟩] :=
  ⟨by decide,
   dedupeRoles_collapsesDuplicateKeys [] [] [] _ _ (by decide) (by decide)⟩

/-- Claim C10 (counterexample): the ≥1-user-message validation runs on
the full sanitized transcript before the 120-message truncation, so a
turn older than the final 120 messages still influences the response:
two transcripts with identical sanitized final-120 windows validate
differently. -/
theorem outOfWindowTurnInfluences :
    lastN 120 (sanitizeMessages oldUserTranscript) =
      lastN 120 (sanitizeMessages noUserTranscript) ∧
    (validateRequestBody oldUserTranscript none none).toOption.isSome = true ∧
    (validateRequestBody noUserTranscript none none).toOption.isSome = false :=
  ⟨by decide, by decide, by decide⟩

/-- `lastN 120` never returns more than 120 messages. -/
theorem lastN_length_le (l : List Message) : (lastN 120 l).length ≤ 120 := by
  simp only [lastN, List.length_drop]
  omega

/-- Claim C10 (amended): successful validation returns exactly the final
120 sanitized messages (unknown roles dropped, contents coerced to
strings), so all further processing sees at most 120 messages and two
transcripts with equal sanitized final-120 windows yield equal message
lists — but the ≥1-valid-user-message check runs on the full sanitized
list before truncation, so turns older than the window can still decide
between success and a 400 error. -/
theorem validationWindow (raw1 raw2 : List RawMessage) (cv sel : Option String)
    (b1 b2 : RequestBody)
    (h1 : validateRequestBody raw1 cv sel = .ok b1)
    (h2 : validateRequestBody raw2 cv sel = .ok b2)
    (hw : lastN 120 (sanitizeMessages raw1) = lastN 120 (sanitizeMessages raw2)) :
    b1.messages = b2.messages ∧
    b1.messages = lastN 120 (sanitizeMessages raw1) ∧
    b1.messages.length ≤ 120 := by
  have e1 : b1.messages = lastN 120 (sanitizeMessages raw1) := by
    simp only [validateRequestBody] at h1
    split_ifs at h1
    injection h1 with h1'
    subst h1'
    rfl
  have e2 : b2.messages = lastN 120 (sanitizeMessages raw2) := by
    simp only [validateRequestBody] at h2
    split_ifs at h2
    injection h2 with h2'
    subst h2'
    rfl
  exact ⟨e1.trans (hw.trans e2.symm), e1, e1 ▸ lastN_length_le _⟩

/-- Claim C10 witness: prepending a dropped unknown-role message leaves
the sanitized window, and hence the validated message list, unchanged. -/
theorem validationWindow_witness :
    (validateRequestBody shortTranscript1 none none =
        .ok (⟨[⟨.user, "hej"⟩], none, none⟩ : RequestBody)) ∧
    (validateRequestBody shortTranscript2 none none =
        .ok (⟨[⟨.user, "hej"⟩], none, none⟩ : RequestBody)) ∧
    ((⟨[⟨.user, "hej"⟩], none, none⟩ : RequestBody).messages =
        (⟨[⟨.user, "hej"⟩], none, none⟩ : RequestBody).messages ∧
      (⟨[⟨.user, "hej"⟩], none, none⟩ : RequestBody).messages =
        lastN 120 (sanitizeMessages shortTranscript1) ∧
      (⟨[⟨.user, "hej"⟩], none, none⟩ : RequestBody).messages.length ≤ 120) :=
  ⟨rfl, rfl,
   validationWindow shortTranscript1 shortTranscript2 none none
     ⟨[⟨.user, "hej"⟩], none, none⟩ ⟨[⟨.user, "hej"⟩], none, none⟩
     rfl rfl (by decide)⟩

end CarrerMVP
